import Mathlib

/-!
Shallow embedding of the statechart engine of `statecharts-ts`.

Two engine implementations exist in the repository and are both embedded:

* namespace `SM`  — `src/stateMachine.ts` (the named source file): a flat
  machine with `isInitial`-driven initialisation, entry hooks, timers, and a
  `send` that iterates a parallel (array) current state through
  `handleSingleStateTransition`;
* namespace `SM8` — `src/unnamed/part_008` (an earlier `stateMachine.ts`
  variant, whose compiled form is `part_003` / `dist/stateMachine.js`): a flat
  machine with an explicit `initialState`, no hooks or timers, and a dedicated
  `handleParallelStateTransitions` that steps each region independently.

Side effects (entry hooks, transition actions, cleanup closures, subscriber
callbacks) are instrumented by an append-only log of `LogEntry` values carried
in the machine record, so that "hook X ran n times" is expressible; context
mutation is modelled by explicit state passing (`C → C` functions).  A ghost
`LogEntry.fired` marker records that a transition's body executed, mirroring
the call of `executeTransitionAction` (it corresponds to no observable of the
source, and is used only to phrase "this dispatch caused a transition").
-/

namespace SC

/-- Source `FlattenedState` of `src/stateMachine.ts` (`S | S[]`): the current state is
either a single state name or an array of parallel state names. -/
inductive FlattenedState where
  | single : String → FlattenedState
  | multi : List String → FlattenedState
deriving DecidableEq, Repr

/-- Source `flattenState` of `src/stateMachine.ts` (lines 305-310): a single state
becomes a one-element array, an array stays as is. -/
def flattenState : FlattenedState → List String
  | .single s => [s]
  | .multi ss => ss

/-- One observable side effect of a run, recorded in an append-only log. -/
inductive LogEntry where
  /-- Source `onEntry` of the named state ran. -/
  | entry : String → LogEntry
  /-- Source `onExit` of the named state ran (no code path of `src/stateMachine.ts`
  ever produces this entry: the engine never invokes `onExit`). -/
  | exit : String → LogEntry
  /-- The cleanup closure with the given label ran (`exitFn()`). -/
  | cleanup : String → LogEntry
  /-- The transition action with the given label ran. -/
  | act : String → LogEntry
  /-- Ghost marker: a transition's body executed, with the given target. -/
  | fired : String → LogEntry
  /-- A subscriber callback was invoked with one flattened state name
  (`src/stateMachine.ts` notification style: `callback(state, context)` once
  per flattened state). -/
  | notifyState : String → String → LogEntry
  /-- A subscriber callback was invoked with the whole current state
  (`part_008` notification style: `subscriber(currentState, context)`). -/
  | notifySnapshot : String → LogEntry
deriving DecidableEq, Repr

/-- A cleanup closure returned by a transition action: a label (identifying
the closure in the log) and its effect on the context. -/
structure CleanupDef (C : Type) where
  label : String
  run : C → C

/-- A transition action: label, effect on the context (also seeing the event
type tag), and the cleanup closure it returns, if any. -/
structure ActionDef (C : Type) where
  label : String
  run : C → String → C
  cleanup : Option (CleanupDef C) := none

/-- An `onEntry`/`onExit` hook: effect on the context. -/
structure HookDef (C : Type) where
  run : C → C

/-- Number of `LogEntry.entry s` entries in a log. -/
def countEntryOf (log : List LogEntry) (s : String) : Nat :=
  (log.filter fun e => e = LogEntry.entry s).length

/-- Number of `LogEntry.exit s` entries in a log. -/
def countExitOf (log : List LogEntry) (s : String) : Nat :=
  (log.filter fun e => e = LogEntry.exit s).length

/-- Number of `LogEntry.cleanup l` entries in a log. -/
def countCleanupOf (log : List LogEntry) (l : String) : Nat :=
  (log.filter fun e => e = LogEntry.cleanup l).length

/-- Number of ghost transition markers in a log. -/
def countFired (log : List LogEntry) : Nat :=
  (log.filter fun e => match e with | .fired _ => true | _ => false).length

/-- Number of per-flattened-state subscriber invocations of subscriber `sub`. -/
def countNotifyStateOf (log : List LogEntry) (sub : String) : Nat :=
  (log.filter fun e => match e with | .notifyState s _ => s = sub | _ => false).length

/-- Number of whole-snapshot subscriber invocations of subscriber `sub`. -/
def countNotifySnapshotOf (log : List LogEntry) (sub : String) : Nat :=
  (log.filter fun e => match e with | .notifySnapshot s => s = sub | _ => false).length

/-- Log entries that the transition-handling phase can produce: hooks,
cleanups, actions and ghost markers — not `exit` (never produced anywhere)
and not subscriber notifications (produced only by the notify step). -/
def isEngineMark : LogEntry → Bool
  | .entry _ => true
  | .cleanup _ => true
  | .act _ => true
  | .fired _ => true
  | _ => false

end SC

namespace SM

open SC

/-- Source `onTimeout` of a state definition: a delay computed from the context and a
timeout action.  The engine only ever uses its presence to arm a timer
(`setStateTimeout`) and its identity to disarm it (`clearStateTimeout`);
actual asynchronous firing is outside this model. -/
structure TimeoutDef (C : Type) where
  delay : C → Nat
  label : String
  run : C → C

/-- One branch of a `StateTransition` of `src/stateMachine.ts`: target state,
optional guard, optional action. -/
structure TransitionDef (C : Type) where
  target : String
  guard : Option (C → String → Bool) := none
  action : Option (ActionDef C) := none

/-- Source `StateTransition` (lines 10-18): a single transition or an ordered array
of candidate transitions. -/
inductive StateTransition (C : Type) where
  | one : TransitionDef C → StateTransition C
  | many : List (TransitionDef C) → StateTransition C

/-- Source `StateDefinition` (lines 39-54).  The source field `on` is called
`eventHandlers` here (`on` is reserved in Lean); it is the ordered mapping
from event-type tag to registered transition.  The `isParallel` and nested
`states` fields of the source type are never read by the engine functions of
`src/stateMachine.ts` (only `config.states` at top level is consulted), so the
nested `states` field is not carried here. -/
structure StateDefinition (C : Type) where
  isInitial : Bool := false
  isParallel : Bool := false
  onEntry : Option (HookDef C) := none
  onExit : Option (HookDef C) := none
  onTimeout : Option (TimeoutDef C) := none
  eventHandlers : List (String × StateTransition C) := []

/-- The mutable state of a machine created by `createStateMachine`
(lines 82-86), plus the instrumentation log. `timeoutIds` models the keys of
the `timeoutIds` object: the set of states with an armed timer. -/
structure Machine (C : Type) where
  states : List (String × StateDefinition C)
  currentState : FlattenedState
  context : C
  exitFn : Option (CleanupDef C) := none
  subscribers : List String := []
  timeoutIds : List String := []
  log : List LogEntry := []

variable {C : Type}

/-- Source `config.states[state]` lookup. -/
def lookupState (states : List (String × StateDefinition C)) (s : String) :
    Option (StateDefinition C) :=
  (states.find? fun p => p.1 = s).map Prod.snd

/-- Source `stateDef.on?.[event.type]` lookup. -/
def lookupOn (handlers : List (String × StateTransition C)) (e : String) :
    Option (StateTransition C) :=
  (handlers.find? fun p => p.1 = e).map Prod.snd

/-- Source `setStateTimeout` (lines 205-212): if the state definition has an
`onTimeout`, record an armed timer under the state's key. -/
def setStateTimeout (m : Machine C) (state : String) (sd : StateDefinition C) :
    Machine C :=
  match sd.onTimeout with
  | some _ => { m with timeoutIds := m.timeoutIds.insert state }
  | none => m

/-- Source `clearStateTimeout` (lines 218-223): delete the state's timer key if
present (a no-op otherwise). -/
def clearStateTimeout (m : Machine C) (state : String) : Machine C :=
  { m with timeoutIds := m.timeoutIds.erase state }

/-- Source `enterState` (lines 104-112): run `onEntry` if present, then arm the
state's timer. -/
def enterState (m : Machine C) (state : String) : Machine C :=
  match lookupState m.states state with
  | some sd =>
      let m1 :=
        match sd.onEntry with
        | some h => { m with context := h.run m.context,
                             log := m.log ++ [LogEntry.entry state] }
        | none => m
      setStateTimeout m1 state sd
  | none => m

/-- Guard evaluation: an absent guard passes (`!transition.guard || ...`). -/
def guardPasses (t : TransitionDef C) (ctx : C) (e : String) : Bool :=
  match t.guard with
  | some g => g ctx e
  | none => true

/-- Source `executeTransitionAction` (lines 186-198): run the pending `exitFn` if
present (without clearing it), run the transition's action (installing its
returned cleanup, if any, as the new `exitFn`), set the current state to the
target, and enter the target. -/
def executeTransitionAction (m : Machine C) (t : TransitionDef C) (e : String) :
    Machine C :=
  let m1 :=
    match m.exitFn with
    | some cl => { m with context := cl.run m.context,
                          log := m.log ++ [LogEntry.cleanup cl.label] }
    | none => m
  let m2 :=
    match t.action with
    | some a =>
        let mAct := { m1 with context := a.run m1.context e,
                              log := m1.log ++ [LogEntry.act a.label] }
        match a.cleanup with
        | some cl => { mAct with exitFn := some cl }
        | none => mAct
    | none => m1
  let m3 := { m2 with currentState := FlattenedState.single t.target,
                      log := m2.log ++ [LogEntry.fired t.target] }
  enterState m3 t.target

/-- The array branch of `processTransition` (lines 166-173): skip candidates
whose guard is present and fails; execute the first remaining candidate and
stop. -/
def processTransitionList (m : Machine C) (ts : List (TransitionDef C))
    (e : String) : Machine C :=
  match ts with
  | [] => m
  | t :: rest =>
      if guardPasses t m.context e then executeTransitionAction m t e
      else processTransitionList m rest e

/-- Source `processTransition` (lines 165-179). -/
def processTransition (m : Machine C) (tr : StateTransition C) (e : String) :
    Machine C :=
  match tr with
  | .many ts => processTransitionList m ts e
  | .one t =>
      if guardPasses t m.context e then executeTransitionAction m t e else m

/-- Source `handleSingleStateTransition` (lines 148-158): if the state has a
definition, clear its timer unconditionally, then process the transition
registered for the event's type, if any. -/
def handleSingleStateTransition (m : Machine C) (state : String) (e : String) :
    Machine C :=
  match lookupState m.states state with
  | some sd =>
      let m1 := clearStateTimeout m state
      match lookupOn sd.eventHandlers e with
      | some tr => processTransition m1 tr e
      | none => m1
  | none => m

/-- Source `notifySubscribers` (lines 254-259): for each flattened state of the
current state, invoke every subscriber with that state and the context. -/
def notifySubscribers (m : Machine C) : Machine C :=
  { m with log := m.log ++
      ((flattenState m.currentState).map fun s =>
        m.subscribers.map fun sub => LogEntry.notifyState sub s).flatten }

/-- The transition-handling phase of `send` (lines 135-139), before the final
notification: iterate the captured current-state array (or the single state)
through `handleSingleStateTransition`. -/
def handlePhase (m : Machine C) (e : String) : Machine C :=
  match m.currentState with
  | .multi ss => ss.foldl (fun acc s => handleSingleStateTransition acc s e) m
  | .single s => handleSingleStateTransition m s e

/-- Source `send` (lines 134-141): handle the event, then notify subscribers. -/
def send (m : Machine C) (e : String) : Machine C :=
  notifySubscribers (handlePhase m e)

/-- Source `start` (lines 91-98): enter the initial state(s), then notify. -/
def start (m : Machine C) : Machine C :=
  let m1 :=
    match m.currentState with
    | .multi ss => ss.foldl (fun acc s => enterState acc s) m
    | .single s => enterState m s
  notifySubscribers m1

/-- Source `subscribe` (lines 229-231). -/
def subscribe (m : Machine C) (sub : String) : Machine C :=
  { m with subscribers := m.subscribers ++ [sub] }

/-- The entries of the state map marked `isInitial` (line 284). -/
def initialEntries (states : List (String × StateDefinition C)) :
    List (String × StateDefinition C) :=
  states.filter fun p => p.2.isInitial

/-- Source `initializeState` (lines 281-297): zero initial states is a construction
error; one yields that single state; two or more yield the array of all
initial states. -/
def initializeState (states : List (String × StateDefinition C)) :
    Except String FlattenedState :=
  match initialEntries states with
  | [] => Except.error "No initial state defined"
  | [p] => Except.ok (FlattenedState.single p.1)
  | p :: q :: ps => Except.ok (FlattenedState.multi ((p :: q :: ps).map Prod.fst))

/-- A fresh machine record as built by `createStateMachine` (lines 82-86):
`structuredClone` of the context is modelled as the identity on the value. -/
def mkMachine (states : List (String × StateDefinition C)) (cs : FlattenedState)
    (ctx : C) : Machine C :=
  { states := states, currentState := cs, context := ctx }

/-- Source `createStateMachine` (lines 74-86, 261-270): construction succeeds exactly
when `initializeState` does. -/
def createStateMachine (states : List (String × StateDefinition C)) (ctx : C) :
    Except String (Machine C) :=
  (initializeState states).map fun cs => mkMachine states cs ctx

/-- Whether the state map registers a transition for state `s` and event type
`e` (the condition under which `handleSingleStateTransition` reaches
`processTransition`). -/
def hasHandlerFor (states : List (String × StateDefinition C)) (s e : String) :
    Bool :=
  match lookupState states s with
  | some sd => (lookupOn sd.eventHandlers e).isSome
  | none => false

/-- The cleanup closure returned by a transition's action, if any. -/
def actionCleanup (t : TransitionDef C) : Option (CleanupDef C) :=
  match t.action with
  | some a => a.cleanup
  | none => none

end SM

namespace SC

/-- JSON documents.  `JSON.stringify`/`JSON.parse` of `src/stateMachine.ts`'s
`toJSON`/`fromJSON` are modelled at the level of the JSON document: the
stringify/parse pair is the identity on the document, so serialisation is the
document produced by `toJSON` and deserialisation reads its fields back. -/
inductive Json where
  | str : String → Json
  | num : Int → Json
  | bool : Bool → Json
  | null : Json
  | arr : List Json → Json
  | obj : List (String × Json) → Json

/-- How `JSON.stringify` renders the current state: a single state is a JSON
string, a parallel state is a JSON array of strings. -/
def encodeState : FlattenedState → Json
  | .single s => Json.str s
  | .multi ss => Json.arr (ss.map Json.str)

/-- Reading one state name back from a JSON document. -/
def decodeStateName : Json → Option String
  | .str s => some s
  | _ => none

/-- Reading a current state back from a JSON document (the shape `fromJSON`
assigns to `currentState`). -/
def decodeState : Json → Option FlattenedState
  | .str s => some (FlattenedState.single s)
  | .arr js => (js.mapM decodeStateName).map FlattenedState.multi
  | _ => none

/-- Field lookup in a JSON object. -/
def jsonLookup (fields : List (String × Json)) (k : String) : Option Json :=
  (fields.find? fun p => p.1 = k).map Prod.snd

end SC

namespace SM

open SC

/-- Source `toJSON` (lines 237-239): the serialised snapshot
`JSON.stringify({ state: currentState, context })`, as a JSON document. -/
def toJSON (m : Machine Json) : Json :=
  Json.obj [("state", encodeState m.currentState), ("context", m.context)]

/-- Source `fromJSON` (lines 245-249): parse the snapshot and assign
`currentState = data.state`, `context = data.context`.  The source performs no
validation; reading a document that does not have the shape `toJSON` produces
is modelled as `none`. -/
def fromJSON (m : Machine Json) (j : Json) : Option (Machine Json) :=
  match j with
  | .obj fields =>
      match jsonLookup fields "state", jsonLookup fields "context" with
      | some st, some ctx =>
          (decodeState st).map fun cs =>
            { m with currentState := cs, context := ctx }
      | _, _ => none
  | _ => none

end SM

namespace SM8

open SC

/-- Source `StateTransition` of `src/unnamed/part_008` (lines 10-14): a single
target/guard/action record (no array form in this variant). -/
structure Transition8 (C : Type) where
  target : String
  guard : Option (C → String → Bool) := none
  action : Option (ActionDef C) := none

/-- The mutable state of a machine created by `part_008`'s
`createStateMachine` (lines 44-56): explicit transition map, current state
(string or array), context, pending cleanup slot, subscribers; no timers and
no entry/exit hooks exist in this variant. -/
structure Machine8 (C : Type) where
  transitionMap : List (String × List (String × Transition8 C))
  currentState : FlattenedState
  context : C
  exitFn : Option (CleanupDef C) := none
  subscribers : List String := []
  log : List LogEntry := []

variable {C : Type}

/-- Source `config.transitionMap[state]` lookup at the level of the map. -/
def lookupStateTransitions
    (tm : List (String × List (String × Transition8 C))) (s : String) :
    Option (List (String × Transition8 C)) :=
  (tm.find? fun p => p.1 = s).map Prod.snd

/-- Source `getTransitionsForState` (lines 133-135). -/
def getTransitionsForState (m : Machine8 C) (s : String) :
    Option (List (String × Transition8 C)) :=
  lookupStateTransitions m.transitionMap s

/-- Source `transitions[event.type]` lookup. -/
def lookupTr8 (trs : List (String × Transition8 C)) (e : String) :
    Option (Transition8 C) :=
  (trs.find? fun p => p.1 = e).map Prod.snd

/-- Guard evaluation: an absent guard passes. -/
def guardPasses8 (t : Transition8 C) (ctx : C) (e : String) : Bool :=
  match t.guard with
  | some g => g ctx e
  | none => true

/-- The shared body of a firing transition (lines 92-100 and 113-121): run the
pending `exitFn` if present (without clearing it), run the action, and install
its returned cleanup, if any, as the new `exitFn`. -/
def fireBody (m : Machine8 C) (t : Transition8 C) (e : String) : Machine8 C :=
  let m1 :=
    match m.exitFn with
    | some cl => { m with context := cl.run m.context,
                          log := m.log ++ [LogEntry.cleanup cl.label] }
    | none => m
  match t.action with
  | some a =>
      let m2 := { m1 with context := a.run m1.context e,
                          log := m1.log ++ [LogEntry.act a.label] }
      match a.cleanup with
      | some cl => { m2 with exitFn := some cl }
      | none => m2
  | none => m1

/-- Source `handleSingleStateTransition` (lines 87-104): fires the registered
transition for the event if its guard passes, replacing the current state by
the target.  (It is only reached when `currentState` is a single string; the
array case is routed to the parallel handler by `send`.) -/
def handleSingleStateTransition8 (m : Machine8 C) (e : String) : Machine8 C :=
  match m.currentState with
  | .single s =>
      match getTransitionsForState m s with
      | some trs =>
          match lookupTr8 trs e with
          | some t =>
              if guardPasses8 t m.context e then
                let m1 := fireBody m t e
                { m1 with currentState := FlattenedState.single t.target,
                          log := m1.log ++ [LogEntry.fired t.target] }
              else m
          | none => m
      | none => m
  | .multi _ => m

/-- The loop body of `handleParallelStateTransitions` (lines 108-129) for one
region: returns the updated machine (context, cleanup slot, log) and the state
pushed onto `newStates` — the transition target if one fired, the old region
state otherwise. -/
def handleRegion (m : Machine8 C) (e : String) (s : String) :
    Machine8 C × String :=
  match getTransitionsForState m s with
  | some trs =>
      match lookupTr8 trs e with
      | some t =>
          if guardPasses8 t m.context e then
            let m1 := fireBody m t e
            ({ m1 with log := m1.log ++ [LogEntry.fired t.target] }, t.target)
          else (m, s)
      | none => (m, s)
  | none => (m, s)

/-- The `forEach` of `handleParallelStateTransitions`: threads the machine
through the regions left to right, collecting `newStates` in order. -/
def parallelStep (m : Machine8 C) (e : String) :
    List String → Machine8 C × List String
  | [] => (m, [])
  | s :: rest =>
      let p1 := handleRegion m e s
      let p2 := parallelStep p1.1 e rest
      (p2.1, p1.2 :: p2.2)

/-- Source `handleParallelStateTransitions` (lines 106-131): step every region,
then replace the current state with the collected `newStates` array. -/
def handleParallelStateTransitions8 (m : Machine8 C) (e : String) : Machine8 C :=
  match m.currentState with
  | .multi ss =>
      let p := parallelStep m e ss
      { p.1 with currentState := FlattenedState.multi p.2 }
  | .single _ => m

/-- Source `notifySubscribers` (lines 145-149): invoke every subscriber once, with
the whole current state and the context. -/
def notifySubscribers8 (m : Machine8 C) : Machine8 C :=
  { m with log := m.log ++ m.subscribers.map LogEntry.notifySnapshot }

/-- Source `send` (lines 78-85): route array states to the parallel handler, single
states to the single handler, then notify once. -/
def send8 (m : Machine8 C) (e : String) : Machine8 C :=
  let m1 :=
    match m.currentState with
    | .multi _ => handleParallelStateTransitions8 m e
    | .single _ => handleSingleStateTransition8 m e
  notifySubscribers8 m1

/-- Whether the transition map registers a transition for state `s` and event
type `e`. -/
def hasHandlerFor8 (tm : List (String × List (String × Transition8 C)))
    (s e : String) : Bool :=
  match lookupStateTransitions tm s with
  | some trs => (lookupTr8 trs e).isSome
  | none => false

/-- Specification of one region's step in `handleParallelStateTransitions`:
relates a region's state `s` before a dispatch of `e` to its contributed
successor `s1`.  An unmatched region keeps its state; a matched, unguarded
region moves to the registered target; and in every case the successor is
either the old state or the registered target — one successor per region. -/
def RegionStepOk (tm : List (String × List (String × Transition8 C)))
    (e s s1 : String) : Prop :=
  (lookupStateTransitions tm s = none → s1 = s)
  ∧ (∀ trs, lookupStateTransitions tm s = some trs →
      lookupTr8 trs e = none → s1 = s)
  ∧ (∀ trs t, lookupStateTransitions tm s = some trs →
      lookupTr8 trs e = some t → t.guard = none → s1 = t.target)
  ∧ (s1 = s ∨ ∃ trs t, lookupStateTransitions tm s = some trs
      ∧ lookupTr8 trs e = some t ∧ s1 = t.target)

end SM8

namespace EX

open SC

/-- A state map with two states marked initial (context type `Int`). -/
def twoInitStates : List (String × SM.StateDefinition Int) :=
  [("a", { isInitial := true }), ("b", { isInitial := true })]

/-- A state map with no state marked initial. -/
def noInitStates : List (String × SM.StateDefinition Int) :=
  [("a", { })]

/-- A one-state machine with a subscriber and no handler for any event. -/
def noMatchMachine : SM.Machine Int :=
  SM.subscribe (SM.mkMachine [("a", { isInitial := true })]
    (FlattenedState.single "a") 0) "s"

/-- A `part_008` machine with a subscriber and an empty transition map. -/
def noMatchB : SM8.Machine8 Int :=
  { transitionMap := [], currentState := FlattenedState.single "a",
    context := 0, subscribers := ["s"] }

/-- State definition of the power/temperature scenario: `off` is initial and
handles `TURN_ON`; `cold` is initial and handles `HEAT`. -/
def powerTempStates : List (String × SM.StateDefinition Int) :=
  [("off", { isInitial := true,
             eventHandlers := [("TURN_ON", .one { target := "on" })] }),
   ("cold", { isInitial := true,
              eventHandlers := [("HEAT", .one { target := "hot" })] }),
   ("on", { }), ("hot", { })]

/-- The power/temperature machine as `src/stateMachine.ts` builds it: both
initial states form the parallel current state. -/
def powerTempA : SM.Machine Int :=
  SM.mkMachine powerTempStates (FlattenedState.multi ["off", "cold"]) 0

/-- The power/temperature machine with one subscriber. -/
def powerTempSubA : SM.Machine Int :=
  SM.subscribe powerTempA "s"

/-- The power/temperature machine in the `part_008` engine, with one
subscriber. -/
def powerTempB : SM8.Machine8 Int :=
  { transitionMap :=
      [("off", [("TURN_ON", { target := "on" })]),
       ("cold", [("HEAT", { target := "hot" })])],
    currentState := FlattenedState.multi ["off", "cold"], context := 0,
    subscribers := ["s"] }

/-- The self-transition of the self-loop machine. -/
def selfTr : SM.TransitionDef Int := { target := "a" }

/-- A state with entry and exit hooks and a self-transition on `SELF`.  The
hooks have distinct visible effects on the `Int` context (`+1` and `+10`). -/
def selfLoopSd : SM.StateDefinition Int :=
  { isInitial := true, onEntry := some ⟨fun c => c + 1⟩,
    onExit := some ⟨fun c => c + 10⟩,
    eventHandlers := [("SELF", .one selfTr)] }

/-- A machine sitting in the self-loop state with context `0`. -/
def selfLoopMachine : SM.Machine Int :=
  SM.mkMachine [("a", selfLoopSd)] (FlattenedState.single "a") 0

/-- First candidate: guard constantly false. -/
def guardFalse : SM.TransitionDef Int :=
  { target := "b", guard := some fun _ _ => false }

/-- Second candidate (other target): guard constantly false. -/
def guardFalse2 : SM.TransitionDef Int :=
  { target := "c", guard := some fun _ _ => false }

/-- Second candidate: guard constantly true. -/
def guardTrue : SM.TransitionDef Int :=
  { target := "c", guard := some fun _ _ => true }

/-- State definition with candidate guards `[false, true]` for event `GO`. -/
def guardOrderSd : SM.StateDefinition Int :=
  { isInitial := true, eventHandlers := [("GO", .many [guardFalse, guardTrue])] }

/-- A machine whose state `a` has candidates with guards `[false, true]` for
event `GO`. -/
def guardOrderMachine : SM.Machine Int :=
  SM.mkMachine [("a", guardOrderSd), ("b", { }), ("c", { })]
    (FlattenedState.single "a") 0

/-- State definition with candidate guards `[false, false]` for event `GO`. -/
def bothFalseSd : SM.StateDefinition Int :=
  { isInitial := true,
    eventHandlers := [("GO", .many [guardFalse, guardFalse2])] }

/-- A machine whose state `a` has candidates with guards `[false, false]` for
event `GO`. -/
def bothFalseMachine : SM.Machine Int :=
  SM.mkMachine [("a", bothFalseSd), ("b", { }), ("c", { })]
    (FlattenedState.single "a") 0

/-- An action that returns a cleanup closure labelled `c`. -/
def cleanupAction : ActionDef Int :=
  { label := "actA", run := fun c _ => c, cleanup := some ⟨"c", fun c => c⟩ }

/-- Two parallel regions in the `part_008` engine: `a1 --E--> a2` with an
action returning a cleanup closure, and `b1 --F--> b2` plain. -/
def cleanupParallelB : SM8.Machine8 Int :=
  { transitionMap :=
      [("a1", [("E", { target := "a2", action := some cleanupAction })]),
       ("b1", [("F", { target := "b2" })])],
    currentState := FlattenedState.multi ["a1", "b1"], context := 0 }

/-- A pending cleanup closure. -/
def pendingCleanup : CleanupDef Int := ⟨"c0", fun c => c⟩

/-- A machine with a pending cleanup installed in its `exitFn` slot. -/
def pendingCleanupMachine : SM.Machine Int :=
  { states := [], currentState := FlattenedState.single "x", context := 0,
    exitFn := some pendingCleanup }

/-- A transition with no action. -/
def plainTr : SM.TransitionDef Int := { target := "y" }

/-- A transition whose action returns the cleanup closure labelled `c`. -/
def cleanupTr : SM.TransitionDef Int :=
  { target := "y", action := some cleanupAction }

/-- A `part_008` machine with a pending cleanup installed. -/
def pendingCleanupMachineB : SM8.Machine8 Int :=
  { transitionMap := [], currentState := FlattenedState.single "x",
    context := 0, exitFn := some pendingCleanup }

/-- A `part_008` transition with no action. -/
def plainTrB : SM8.Transition8 Int := { target := "y" }

/-- A state with a timeout and no event handlers. -/
def timerSd : SM.StateDefinition Int :=
  { isInitial := true, onTimeout := some ⟨fun _ => 5, "t", fun c => c⟩ }

/-- The timeout machine before `start`. -/
def timerBase : SM.Machine Int :=
  SM.mkMachine [("a", timerSd)] (FlattenedState.single "a") 0

/-- The timeout machine after `start`: state `a` entered, timer armed. -/
def timerMachine : SM.Machine Int := SM.start timerBase

end EX

section CountLemmas

open SC

theorem countEntryOf_append (l1 l2 : List LogEntry) (s : String) :
    countEntryOf (l1 ++ l2) s = countEntryOf l1 s + countEntryOf l2 s := by
  simp [countEntryOf, List.filter_append]

theorem countExitOf_append (l1 l2 : List LogEntry) (s : String) :
    countExitOf (l1 ++ l2) s = countExitOf l1 s + countExitOf l2 s := by
  simp [countExitOf, List.filter_append]

theorem countCleanupOf_append (l1 l2 : List LogEntry) (s : String) :
    countCleanupOf (l1 ++ l2) s = countCleanupOf l1 s + countCleanupOf l2 s := by
  simp [countCleanupOf, List.filter_append]

theorem countFired_append (l1 l2 : List LogEntry) :
    countFired (l1 ++ l2) = countFired l1 + countFired l2 := by
  simp [countFired, List.filter_append]

theorem countNotifyStateOf_append (l1 l2 : List LogEntry) (sub : String) :
    countNotifyStateOf (l1 ++ l2) sub
      = countNotifyStateOf l1 sub + countNotifyStateOf l2 sub := by
  simp [countNotifyStateOf, List.filter_append]

theorem countNotifySnapshotOf_append (l1 l2 : List LogEntry) (sub : String) :
    countNotifySnapshotOf (l1 ++ l2) sub
      = countNotifySnapshotOf l1 sub + countNotifySnapshotOf l2 sub := by
  simp [countNotifySnapshotOf, List.filter_append]

theorem countExitOf_engineMarks (d : List LogEntry) (s : String)
    (h : ∀ x ∈ d, isEngineMark x = true) : countExitOf d s = 0 := by
  induction d with
  | nil => rfl
  | cons x xs ih =>
      have hx := h x (List.mem_cons_self x xs)
      have hxs := ih fun y hy => h y (List.mem_cons_of_mem x hy)
      cases x with
      | exit a => simp [isEngineMark] at hx
      | notifyState a b => simp [isEngineMark] at hx
      | notifySnapshot a => simp [isEngineMark] at hx
      | entry a => simpa [countExitOf, List.filter_cons] using hxs
      | cleanup a => simpa [countExitOf, List.filter_cons] using hxs
      | act a => simpa [countExitOf, List.filter_cons] using hxs
      | fired a => simpa [countExitOf, List.filter_cons] using hxs

theorem countNotifyStateOf_engineMarks (d : List LogEntry) (sub : String)
    (h : ∀ x ∈ d, isEngineMark x = true) : countNotifyStateOf d sub = 0 := by
  induction d with
  | nil => rfl
  | cons x xs ih =>
      have hx := h x (List.mem_cons_self x xs)
      have hxs := ih fun y hy => h y (List.mem_cons_of_mem x hy)
      cases x with
      | exit a => simp [isEngineMark] at hx
      | notifyState a b => simp [isEngineMark] at hx
      | notifySnapshot a => simp [isEngineMark] at hx
      | entry a => simpa [countNotifyStateOf, List.filter_cons] using hxs
      | cleanup a => simpa [countNotifyStateOf, List.filter_cons] using hxs
      | act a => simpa [countNotifyStateOf, List.filter_cons] using hxs
      | fired a => simpa [countNotifyStateOf, List.filter_cons] using hxs

theorem countNotifySnapshotOf_engineMarks (d : List LogEntry) (sub : String)
    (h : ∀ x ∈ d, isEngineMark x = true) : countNotifySnapshotOf d sub = 0 := by
  induction d with
  | nil => rfl
  | cons x xs ih =>
      have hx := h x (List.mem_cons_self x xs)
      have hxs := ih fun y hy => h y (List.mem_cons_of_mem x hy)
      cases x with
      | exit a => simp [isEngineMark] at hx
      | notifyState a b => simp [isEngineMark] at hx
      | notifySnapshot a => simp [isEngineMark] at hx
      | entry a => simpa [countNotifySnapshotOf, List.filter_cons] using hxs
      | cleanup a => simpa [countNotifySnapshotOf, List.filter_cons] using hxs
      | act a => simpa [countNotifySnapshotOf, List.filter_cons] using hxs
      | fired a => simpa [countNotifySnapshotOf, List.filter_cons] using hxs

theorem countNotifyStateOf_map (subs : List String) (st sub : String) :
    countNotifyStateOf (subs.map fun x => LogEntry.notifyState x st) sub
      = subs.count sub := by
  induction subs with
  | nil => rfl
  | cons x xs ih =>
      by_cases hx : x = sub
      · simp [countNotifyStateOf, List.filter_cons, hx, List.count_cons] at ih ⊢
        omega
      · simp [countNotifyStateOf, List.filter_cons, hx, List.count_cons] at ih ⊢
        omega

theorem countNotifySnapshotOf_map (subs : List String) (sub : String) :
    countNotifySnapshotOf (subs.map LogEntry.notifySnapshot) sub
      = subs.count sub := by
  induction subs with
  | nil => rfl
  | cons x xs ih =>
      by_cases hx : x = sub
      · simp [countNotifySnapshotOf, List.filter_cons, hx, List.count_cons] at ih ⊢
        omega
      · simp [countNotifySnapshotOf, List.filter_cons, hx, List.count_cons] at ih ⊢
        omega

end CountLemmas

open SC in
/-- C1 counterexample: a state map with two states marked initial does NOT
make `createStateMachine` throw — construction succeeds and yields a usable
machine whose current state is the array of both initial states. -/
theorem C1_two_initials_no_error :
    SM.createStateMachine EX.twoInitStates (0 : Int)
      = Except.ok (SM.mkMachine EX.twoInitStates
          (FlattenedState.multi ["a", "b"]) 0) := rfl

open SC in
/-- C1 amended: construction fails fast (with the error
"No initial state defined") exactly when no state is marked initial; with two
or more initial states, construction succeeds and the machine starts in the
parallel array of all initial states. -/
theorem C1_initial_count_build {C : Type}
    (states : List (String × SM.StateDefinition C)) (ctx : C) :
    (SM.initialEntries states = [] →
      SM.createStateMachine states ctx
        = Except.error "No initial state defined")
    ∧ (2 ≤ (SM.initialEntries states).length →
      SM.createStateMachine states ctx
        = Except.ok (SM.mkMachine states
            (FlattenedState.multi ((SM.initialEntries states).map Prod.fst))
            ctx)) := by
  constructor
  · intro h0
    simp [SM.createStateMachine, SM.initializeState, h0, Except.map]
  · intro h2
    cases h : SM.initialEntries states with
    | nil => rw [h] at h2; simp at h2
    | cons p rest =>
        cases rest with
        | nil => rw [h] at h2; simp at h2
        | cons q ps =>
            simp [SM.createStateMachine, SM.initializeState, h, Except.map]

/-- C1 witness: the amended statement evaluated at a map with no initial state
and at a map with two initial states. -/
theorem C1_initial_count_build_witness :
    SM.createStateMachine EX.noInitStates (0 : Int)
      = Except.error "No initial state defined"
    ∧ SM.createStateMachine EX.twoInitStates (0 : Int)
      = Except.ok (SM.mkMachine EX.twoInitStates
          (SC.FlattenedState.multi
            ((SM.initialEntries EX.twoInitStates).map Prod.fst)) 0) :=
  ⟨(C1_initial_count_build EX.noInitStates 0).1 rfl,
   (C1_initial_count_build EX.twoInitStates 0).2 (by decide)⟩

open SC in
/-- C2 counterexample: dispatching an event with no matching transition in the
(single, active) state leaves the current state and the context unchanged,
but the subscriber callback IS invoked (once) — the no-op dispatch does emit a
notification, contrary to the claim. -/
theorem C2_noop_dispatch_notifies :
    (SM.send EX.noMatchMachine "E").currentState
        = EX.noMatchMachine.currentState
    ∧ (SM.send EX.noMatchMachine "E").context = EX.noMatchMachine.context
    ∧ countNotifyStateOf (SM.send EX.noMatchMachine "E").log "s" = 1 := by
  refine ⟨rfl, rfl, ?_⟩
  decide

open SC in
/-- C4 counterexample: a self-transition on a state with both hooks runs
`onEntry` exactly once and `onExit` zero times; visibly, the context gains
only the entry hook's `+1` (an exit invocation would have added `+10`). -/
theorem C4_self_transition_skips_exit :
    countEntryOf (SM.send EX.selfLoopMachine "SELF").log "a" = 1
    ∧ countExitOf (SM.send EX.selfLoopMachine "SELF").log "a" = 0
    ∧ (SM.send EX.selfLoopMachine "SELF").context = 1 := by
  refine ⟨by decide, by decide, by decide⟩

open SC in
/-- C6 counterexample: in the two-region `part_008` machine, sending `E`
installs the cleanup returned by region `a`'s action, and the subsequent
dispatch of `F` — which transitions only region `b`, while `a2` (the state the
cleanup was configured by) remains active — invokes that cleanup. -/
theorem C6_cleanup_runs_on_other_region :
    countCleanupOf (SM8.send8 EX.cleanupParallelB "E").log "c" = 0
    ∧ (SM8.send8 EX.cleanupParallelB "E").currentState
        = FlattenedState.multi ["a2", "b1"]
    ∧ countCleanupOf
        (SM8.send8 (SM8.send8 EX.cleanupParallelB "E") "F").log "c" = 1
    ∧ (SM8.send8 (SM8.send8 EX.cleanupParallelB "E") "F").currentState
        = FlattenedState.multi ["a2", "b2"] := by
  refine ⟨by decide, by decide, by decide, by decide⟩

open SC in
/-- C8 counterexample: after `start`, state `a`'s timer is armed; dispatching
an event with no matching transition leaves `a` active but destroys the armed
timer — a dispatch that leaves the state active does cancel its timer,
contrary to the claim. -/
theorem C8_noop_dispatch_cancels_timer :
    EX.timerMachine.timeoutIds = ["a"]
    ∧ (SM.send EX.timerMachine "E").currentState
        = FlattenedState.single "a"
    ∧ (SM.send EX.timerMachine "E").timeoutIds = [] := by
  refine ⟨by decide, by decide, by decide⟩

open SC in
/-- C9 counterexample: under `src/stateMachine.ts`, the power/temperature
machine is built with current state `[off, cold]`, but sending `TURN_ON`
replaces the whole current state with the single target `on` — the
`temperature` region is dropped instead of staying `cold`. -/
theorem C9_stateMachineTs_collapses_regions :
    SM.createStateMachine EX.powerTempStates (0 : Int) = Except.ok EX.powerTempA
    ∧ (SM.send EX.powerTempA "TURN_ON").currentState
        = FlattenedState.single "on"
    ∧ (SM.send EX.powerTempA "TURN_ON").currentState
        ≠ FlattenedState.multi ["on", "cold"] := by
  refine ⟨rfl, by decide, by decide⟩

namespace SM

open SC

variable {C : Type}

theorem engineMarks_append {d1 d2 : List LogEntry}
    (h1 : ∀ x ∈ d1, isEngineMark x = true)
    (h2 : ∀ x ∈ d2, isEngineMark x = true) :
    ∀ x ∈ d1 ++ d2, isEngineMark x = true := by
  intro x hx
  rcases List.mem_append.mp hx with h | h
  exacts [h1 x h, h2 x h]

theorem setStateTimeout_parts (m : Machine C) (s : String)
    (sd : StateDefinition C) :
    (setStateTimeout m s sd).states = m.states
    ∧ (setStateTimeout m s sd).subscribers = m.subscribers
    ∧ (setStateTimeout m s sd).currentState = m.currentState
    ∧ (setStateTimeout m s sd).context = m.context
    ∧ (setStateTimeout m s sd).exitFn = m.exitFn
    ∧ (setStateTimeout m s sd).log = m.log := by
  unfold setStateTimeout
  cases sd.onTimeout <;> simp

theorem enterState_parts (m : Machine C) (s : String) :
    (enterState m s).states = m.states
    ∧ (enterState m s).subscribers = m.subscribers
    ∧ (enterState m s).currentState = m.currentState
    ∧ (enterState m s).exitFn = m.exitFn
    ∧ ∃ d, (enterState m s).log = m.log ++ d
        ∧ ∀ x ∈ d, isEngineMark x = true := by
  cases hsd : lookupState m.states s with
  | none =>
      refine ⟨?_, ?_, ?_, ?_, [], ?_, by simp⟩ <;> simp [enterState, hsd]
  | some sd =>
      cases hE : sd.onEntry with
      | none =>
          obtain ⟨h1, h2, h3, h4, h5, h6⟩ := setStateTimeout_parts m s sd
          refine ⟨?_, ?_, ?_, ?_, [], ?_, by simp⟩ <;>
            simp [enterState, hsd, hE, h1, h2, h3, h5, h6]
      | some h0 =>
          obtain ⟨h1, h2, h3, h4, h5, h6⟩ := setStateTimeout_parts
            { m with context := h0.run m.context,
                     log := m.log ++ [LogEntry.entry s] } s sd
          refine ⟨?_, ?_, ?_, ?_, [LogEntry.entry s], ?_,
            by simp [isEngineMark]⟩ <;>
            simp [enterState, hsd, hE, h1, h2, h3, h5, h6]

theorem executeFinish (m : Machine C) (tgt : String) (δ : List LogEntry)
    (M3 : Machine C)
    (hs : M3.states = m.states) (hsub : M3.subscribers = m.subscribers)
    (hcs : M3.currentState = FlattenedState.single tgt)
    (hlog : M3.log = m.log ++ δ)
    (hδ : ∀ x ∈ δ, isEngineMark x = true) (hf : 1 ≤ countFired δ) :
    (enterState M3 tgt).states = m.states
    ∧ (enterState M3 tgt).subscribers = m.subscribers
    ∧ (enterState M3 tgt).currentState = FlattenedState.single tgt
    ∧ ∃ d, (enterState M3 tgt).log = m.log ++ d
        ∧ (∀ x ∈ d, isEngineMark x = true) ∧ 1 ≤ countFired d := by
  obtain ⟨h1, h2, h3, h4, d, h5, h6⟩ := enterState_parts M3 tgt
  refine ⟨h1.trans hs, h2.trans hsub, h3.trans hcs, δ ++ d, ?_,
    engineMarks_append hδ h6, ?_⟩
  · rw [h5, hlog, List.append_assoc]
  · rw [countFired_append]; omega

theorem executeTransitionAction_parts (m : Machine C) (t : TransitionDef C)
    (e : String) :
    (executeTransitionAction m t e).states = m.states
    ∧ (executeTransitionAction m t e).subscribers = m.subscribers
    ∧ (executeTransitionAction m t e).currentState
        = FlattenedState.single t.target
    ∧ ∃ d, (executeTransitionAction m t e).log = m.log ++ d
        ∧ (∀ x ∈ d, isEngineMark x = true) ∧ 1 ≤ countFired d := by
  rcases hex : m.exitFn with _ | cl
  · rcases hA : t.action with _ | a
    · simp only [executeTransitionAction, hex, hA]
      exact executeFinish m t.target [LogEntry.fired t.target] _ rfl rfl rfl
        (by simp) (by simp [isEngineMark]) (by simp [countFired])
    · rcases hC : a.cleanup with _ | cl2 <;>
        simp only [executeTransitionAction, hex, hA, hC] <;>
        exact executeFinish m t.target
          [LogEntry.act a.label, LogEntry.fired t.target] _ rfl rfl rfl
          (by simp) (by simp [isEngineMark]) (by simp [countFired])
  · rcases hA : t.action with _ | a
    · simp only [executeTransitionAction, hex, hA]
      exact executeFinish m t.target
        [LogEntry.cleanup cl.label, LogEntry.fired t.target] _ rfl rfl rfl
        (by simp) (by simp [isEngineMark]) (by simp [countFired])
    · rcases hC : a.cleanup with _ | cl2 <;>
        simp only [executeTransitionAction, hex, hA, hC] <;>
        exact executeFinish m t.target
          [LogEntry.cleanup cl.label, LogEntry.act a.label,
           LogEntry.fired t.target] _ rfl rfl rfl
          (by simp) (by simp [isEngineMark]) (by simp [countFired])

theorem processTransitionList_cases (m : Machine C) (ts : List (TransitionDef C))
    (e : String) :
    processTransitionList m ts e = m
    ∨ ∃ t, processTransitionList m ts e = executeTransitionAction m t e := by
  induction ts with
  | nil => left; rfl
  | cons t rest ih =>
      cases hg : guardPasses t m.context e
      · rcases ih with h | ⟨t2, h⟩
        · left; simpa [processTransitionList, hg] using h
        · right; exact ⟨t2, by simpa [processTransitionList, hg] using h⟩
      · right; exact ⟨t, by simp [processTransitionList, hg]⟩

theorem processTransition_cases (m : Machine C) (tr : StateTransition C)
    (e : String) :
    processTransition m tr e = m
    ∨ ∃ t, processTransition m tr e = executeTransitionAction m t e := by
  cases tr with
  | many ts => exact processTransitionList_cases m ts e
  | one t =>
      cases hg : guardPasses t m.context e
      · left; simp [processTransition, hg]
      · right; exact ⟨t, by simp [processTransition, hg]⟩

theorem handleSingleStateTransition_cases (m : Machine C) (s e : String) :
    (∃ tids, handleSingleStateTransition m s e = { m with timeoutIds := tids })
    ∨ ∃ t, handleSingleStateTransition m s e
        = executeTransitionAction (clearStateTimeout m s) t e := by
  cases hsd : lookupState m.states s with
  | none =>
      left
      exact ⟨m.timeoutIds, by simp [handleSingleStateTransition, hsd]⟩
  | some sd =>
      cases ho : lookupOn sd.eventHandlers e with
      | none =>
          left
          exact ⟨m.timeoutIds.erase s,
            by simp [handleSingleStateTransition, hsd, ho, clearStateTimeout]⟩
      | some tr =>
          rcases processTransition_cases (clearStateTimeout m s) tr e
            with h | ⟨t, h⟩
          · left
            refine ⟨m.timeoutIds.erase s, ?_⟩
            simp only [handleSingleStateTransition, hsd, ho]
            rw [h]
            rfl
          · right
            exact ⟨t, by simp [handleSingleStateTransition, hsd, ho, h]⟩

theorem handleSingleStateTransition_parts (m : Machine C) (s e : String) :
    (handleSingleStateTransition m s e).states = m.states
    ∧ (handleSingleStateTransition m s e).subscribers = m.subscribers
    ∧ ∃ d, (handleSingleStateTransition m s e).log = m.log ++ d
        ∧ ∀ x ∈ d, isEngineMark x = true := by
  rcases handleSingleStateTransition_cases m s e with ⟨tids, h⟩ | ⟨t, h⟩
  · rw [h]; exact ⟨rfl, rfl, [], by simp, by simp⟩
  · obtain ⟨h1, h2, h3, d, h4, h5, h6⟩ :=
      executeTransitionAction_parts (clearStateTimeout m s) t e
    rw [h]
    exact ⟨h1, h2, d, h4, h5⟩

theorem handleSingleStateTransition_fire (m : Machine C) (s e : String) :
    ((handleSingleStateTransition m s e).log = m.log
      ∧ (handleSingleStateTransition m s e).currentState = m.currentState)
    ∨ ∃ u, (handleSingleStateTransition m s e).currentState
        = FlattenedState.single u := by
  rcases handleSingleStateTransition_cases m s e with ⟨tids, h⟩ | ⟨t, h⟩
  · left; rw [h]; exact ⟨rfl, rfl⟩
  · right
    obtain ⟨h1, h2, h3, _⟩ :=
      executeTransitionAction_parts (clearStateTimeout m s) t e
    exact ⟨t.target, by rw [h]; exact h3⟩

theorem foldl_handle_parts (e : String) :
    ∀ (ss : List String) (m : Machine C),
      ((ss.foldl (fun acc s => handleSingleStateTransition acc s e) m).states
          = m.states)
      ∧ ((ss.foldl (fun acc s => handleSingleStateTransition acc s e) m).subscribers
          = m.subscribers)
      ∧ ∃ d, (ss.foldl (fun acc s => handleSingleStateTransition acc s e) m).log
            = m.log ++ d
          ∧ ∀ x ∈ d, isEngineMark x = true := by
  intro ss
  induction ss with
  | nil => intro m; exact ⟨rfl, rfl, [], by simp, by simp⟩
  | cons s rest ih =>
      intro m
      obtain ⟨h1, h2, d1, h3, h4⟩ := handleSingleStateTransition_parts m s e
      obtain ⟨g1, g2, d2, g3, g4⟩ := ih (handleSingleStateTransition m s e)
      refine ⟨?_, ?_, d1 ++ d2, ?_, engineMarks_append h4 g4⟩
      · simpa only [List.foldl_cons] using g1.trans h1
      · simpa only [List.foldl_cons] using g2.trans h2
      · simp only [List.foldl_cons]
        rw [g3, h3, List.append_assoc]

theorem foldl_handle_single (e : String) :
    ∀ (ss : List String) (m : Machine C) (u : String),
      m.currentState = FlattenedState.single u →
      ∃ v, (ss.foldl (fun acc s => handleSingleStateTransition acc s e)
          m).currentState = FlattenedState.single v := by
  intro ss
  induction ss with
  | nil => intro m u h; exact ⟨u, h⟩
  | cons s rest ih =>
      intro m u h
      simp only [List.foldl_cons]
      rcases handleSingleStateTransition_fire m s e with ⟨hl, hc⟩ | ⟨v, hc⟩
      · exact ih _ u (hc.trans h)
      · exact ih _ v hc

theorem foldl_handle_fire (e : String) :
    ∀ (ss : List String) (m : Machine C),
      (((ss.foldl (fun acc s => handleSingleStateTransition acc s e) m).log
          = m.log)
        ∧ ((ss.foldl (fun acc s => handleSingleStateTransition acc s e)
            m).currentState = m.currentState))
      ∨ ∃ u, (ss.foldl (fun acc s => handleSingleStateTransition acc s e)
          m).currentState = FlattenedState.single u := by
  intro ss
  induction ss with
  | nil => intro m; left; exact ⟨rfl, rfl⟩
  | cons s rest ih =>
      intro m
      simp only [List.foldl_cons]
      rcases handleSingleStateTransition_fire m s e with ⟨hl, hc⟩ | ⟨u, hc⟩
      · rcases ih (handleSingleStateTransition m s e) with ⟨gl, gc⟩ | ⟨u, gc⟩
        · left; exact ⟨gl.trans hl, gc.trans hc⟩
        · right; exact ⟨u, gc⟩
      · right; exact foldl_handle_single e rest _ u hc

theorem handlePhase_parts (m : Machine C) (e : String) :
    (handlePhase m e).states = m.states
    ∧ (handlePhase m e).subscribers = m.subscribers
    ∧ ∃ d, (handlePhase m e).log = m.log ++ d
        ∧ ∀ x ∈ d, isEngineMark x = true := by
  cases hcs : m.currentState with
  | multi ss =>
      simpa only [handlePhase, hcs] using foldl_handle_parts e ss m
  | single s =>
      simpa only [handlePhase, hcs] using
        handleSingleStateTransition_parts m s e

theorem handlePhase_fire (m : Machine C) (e : String) :
    ((handlePhase m e).log = m.log
      ∧ (handlePhase m e).currentState = m.currentState)
    ∨ ∃ u, (handlePhase m e).currentState = FlattenedState.single u := by
  cases hcs : m.currentState with
  | multi ss =>
      simpa only [handlePhase, hcs] using foldl_handle_fire e ss m
  | single s =>
      simpa only [handlePhase, hcs] using
        handleSingleStateTransition_fire m s e

theorem handleSingle_noMatch (m : Machine C) (s e : String)
    (h : hasHandlerFor m.states s e = false) :
    ∃ tids, handleSingleStateTransition m s e
      = { m with timeoutIds := tids } := by
  cases hsd : lookupState m.states s with
  | none => exact ⟨m.timeoutIds, by simp [handleSingleStateTransition, hsd]⟩
  | some sd =>
      cases ho : lookupOn sd.eventHandlers e with
      | some tr => simp [hasHandlerFor, hsd, ho] at h
      | none =>
          exact ⟨m.timeoutIds.erase s,
            by simp [handleSingleStateTransition, hsd, ho, clearStateTimeout]⟩

theorem foldl_handle_noMatch (e : String) :
    ∀ (ss : List String) (m : Machine C),
      (∀ s ∈ ss, hasHandlerFor m.states s e = false) →
      ∃ tids, ss.foldl (fun acc s => handleSingleStateTransition acc s e) m
        = { m with timeoutIds := tids } := by
  intro ss
  induction ss with
  | nil => intro m _; exact ⟨m.timeoutIds, rfl⟩
  | cons s rest ih =>
      intro m h
      obtain ⟨t1, h1⟩ := handleSingle_noMatch m s e (h s (by simp))
      simp only [List.foldl_cons]
      rw [h1]
      obtain ⟨t2, h2⟩ := ih { m with timeoutIds := t1 }
        (fun x hx => h x (by simp [hx]))
      exact ⟨t2, h2⟩

end SM

namespace SM8

open SC

variable {C : Type}

theorem fireBody_parts (m : Machine8 C) (t : Transition8 C) (e : String) :
    (fireBody m t e).transitionMap = m.transitionMap
    ∧ (fireBody m t e).subscribers = m.subscribers
    ∧ (fireBody m t e).currentState = m.currentState
    ∧ ∃ d, (fireBody m t e).log = m.log ++ d
        ∧ ∀ x ∈ d, isEngineMark x = true := by
  rcases hex : m.exitFn with _ | cl
  · rcases hA : t.action with _ | a
    · have hr : fireBody m t e = m := by simp [fireBody, hex, hA]
      rw [hr]
      exact ⟨rfl, rfl, rfl, [], by simp, by simp⟩
    · rcases hC : a.cleanup with _ | cl2
      · have hr : fireBody m t e
            = { m with context := a.run m.context e,
                       log := m.log ++ [LogEntry.act a.label] } := by
          simp [fireBody, hex, hA, hC]
        rw [hr]
        exact ⟨rfl, rfl, rfl, [LogEntry.act a.label], rfl,
          by simp [isEngineMark]⟩
      · have hr : fireBody m t e
            = { m with context := a.run m.context e,
                       exitFn := some cl2,
                       log := m.log ++ [LogEntry.act a.label] } := by
          simp [fireBody, hex, hA, hC]
        rw [hr]
        exact ⟨rfl, rfl, rfl, [LogEntry.act a.label], rfl,
          by simp [isEngineMark]⟩
  · rcases hA : t.action with _ | a
    · have hr : fireBody m t e
          = { m with context := cl.run m.context,
                     log := m.log ++ [LogEntry.cleanup cl.label] } := by
        simp [fireBody, hex, hA]
      rw [hr]
      exact ⟨rfl, rfl, rfl, [LogEntry.cleanup cl.label], rfl,
        by simp [isEngineMark]⟩
    · rcases hC : a.cleanup with _ | cl2
      · have hr : fireBody m t e
            = { m with context := a.run (cl.run m.context) e,
                       log := m.log ++ [LogEntry.cleanup cl.label,
                                        LogEntry.act a.label] } := by
          simp [fireBody, hex, hA, hC]
        rw [hr]
        exact ⟨rfl, rfl, rfl,
          [LogEntry.cleanup cl.label, LogEntry.act a.label], rfl,
          by simp [isEngineMark]⟩
      · have hr : fireBody m t e
            = { m with context := a.run (cl.run m.context) e,
                       exitFn := some cl2,
                       log := m.log ++ [LogEntry.cleanup cl.label,
                                        LogEntry.act a.label] } := by
          simp [fireBody, hex, hA, hC]
        rw [hr]
        exact ⟨rfl, rfl, rfl,
          [LogEntry.cleanup cl.label, LogEntry.act a.label], rfl,
          by simp [isEngineMark]⟩

theorem handleRegion_parts (m : Machine8 C) (e s : String) :
    (handleRegion m e s).1.transitionMap = m.transitionMap
    ∧ (handleRegion m e s).1.subscribers = m.subscribers
    ∧ (handleRegion m e s).1.currentState = m.currentState
    ∧ (∃ d, (handleRegion m e s).1.log = m.log ++ d
        ∧ ∀ x ∈ d, isEngineMark x = true)
    ∧ RegionStepOk m.transitionMap e s (handleRegion m e s).2 := by
  cases hT : lookupStateTransitions m.transitionMap s with
  | none =>
      have hr : handleRegion m e s = (m, s) := by
        simp [handleRegion, getTransitionsForState, hT]
      rw [hr]
      refine ⟨rfl, rfl, rfl, ⟨[], by simp, by simp⟩, ?_, ?_, ?_, Or.inl rfl⟩
      · intro _; rfl
      · intro trs htrs; simp [hT] at htrs
      · intro trs t htrs; simp [hT] at htrs
  | some trs =>
      cases hTr : lookupTr8 trs e with
      | none =>
          have hr : handleRegion m e s = (m, s) := by
            simp [handleRegion, getTransitionsForState, hT, hTr]
          rw [hr]
          refine ⟨rfl, rfl, rfl, ⟨[], by simp, by simp⟩, ?_, ?_, ?_,
            Or.inl rfl⟩
          · intro habs; simp [hT] at habs
          · intro _ _ _; rfl
          · intro trs2 t htrs2 ht2
            rw [hT] at htrs2
            cases htrs2
            simp [hTr] at ht2
      | some t =>
          cases hg : guardPasses8 t m.context e with
          | false =>
              have hr : handleRegion m e s = (m, s) := by
                simp [handleRegion, getTransitionsForState, hT, hTr, hg]
              rw [hr]
              refine ⟨rfl, rfl, rfl, ⟨[], by simp, by simp⟩, ?_, ?_, ?_,
                Or.inl rfl⟩
              · intro habs; simp [hT] at habs
              · intro _ _ _; rfl
              · intro trs2 t2 htrs2 ht2 hgnone
                rw [hT] at htrs2
                cases htrs2
                rw [hTr] at ht2
                cases ht2
                simp [guardPasses8, hgnone] at hg
          | true =>
              have hr : handleRegion m e s =
                  ({ fireBody m t e with
                      log := (fireBody m t e).log
                        ++ [LogEntry.fired t.target] }, t.target) := by
                simp [handleRegion, getTransitionsForState, hT, hTr, hg]
              rw [hr]
              obtain ⟨h1, h2, h3, d, h4, h5⟩ := fireBody_parts m t e
              refine ⟨h1, h2, h3,
                ⟨d ++ [LogEntry.fired t.target], ?_,
                  SM.engineMarks_append h5 (by simp [isEngineMark])⟩,
                ?_, ?_, ?_, Or.inr ⟨trs, t, hT, hTr, rfl⟩⟩
              · rw [h4]
                simp [List.append_assoc]
              · intro habs; simp [hT] at habs
              · intro trs2 htrs2 habs
                rw [hT] at htrs2
                cases htrs2
                simp [hTr] at habs
              · intro trs2 t2 htrs2 ht2 _
                rw [hT] at htrs2
                cases htrs2
                rw [hTr] at ht2
                cases ht2
                rfl

theorem parallelStep_spec (e : String) :
    ∀ (rs : List String) (m : Machine8 C),
      (parallelStep m e rs).1.transitionMap = m.transitionMap
      ∧ (parallelStep m e rs).1.subscribers = m.subscribers
      ∧ (parallelStep m e rs).1.currentState = m.currentState
      ∧ (∃ d, (parallelStep m e rs).1.log = m.log ++ d
          ∧ ∀ x ∈ d, isEngineMark x = true)
      ∧ (parallelStep m e rs).2.length = rs.length
      ∧ ∀ i (hi : i < rs.length) (hi2 : i < (parallelStep m e rs).2.length),
          RegionStepOk m.transitionMap e (rs.get ⟨i, hi⟩)
            ((parallelStep m e rs).2.get ⟨i, hi2⟩) := by
  intro rs
  induction rs with
  | nil =>
      intro m
      refine ⟨rfl, rfl, rfl, ⟨[], by simp [parallelStep], by simp⟩, rfl, ?_⟩
      intro i hi hi2
      exact absurd hi (by simp)
  | cons s rest ih =>
      intro m
      obtain ⟨h1, h2, h3, ⟨d1, h4, h5⟩, hR⟩ := handleRegion_parts m e s
      obtain ⟨g1, g2, g3, ⟨d2, g4, g5⟩, glen, gidx⟩ := ih (handleRegion m e s).1
      simp only [parallelStep]
      refine ⟨g1.trans h1, g2.trans h2, g3.trans h3,
        ⟨d1 ++ d2, ?_, SM.engineMarks_append h5 g5⟩, ?_, ?_⟩
      · rw [g4, h4, List.append_assoc]
      · simp [glen]
      · intro i hi hi2
        cases i with
        | zero => simpa using hR
        | succ j =>
            have hj : j < rest.length := by simpa using hi
            have hj2 : j < (parallelStep (handleRegion m e s).1 e rest).2.length := by
              simpa using hi2
            have := gidx j hj hj2
            rw [h1] at this
            simpa using this

theorem handleSingleStateTransition8_parts (m : Machine8 C) (e : String) :
    (handleSingleStateTransition8 m e).transitionMap = m.transitionMap
    ∧ (handleSingleStateTransition8 m e).subscribers = m.subscribers
    ∧ ∃ d, (handleSingleStateTransition8 m e).log = m.log ++ d
        ∧ ∀ x ∈ d, isEngineMark x = true := by
  cases hcs : m.currentState with
  | multi ss =>
      have hr : handleSingleStateTransition8 m e = m := by
        simp [handleSingleStateTransition8, hcs]
      rw [hr]
      exact ⟨rfl, rfl, [], by simp, by simp⟩
  | single s =>
      cases hT : getTransitionsForState m s with
      | none =>
          have hr : handleSingleStateTransition8 m e = m := by
            simp [handleSingleStateTransition8, hcs, hT]
          rw [hr]
          exact ⟨rfl, rfl, [], by simp, by simp⟩
      | some trs =>
          cases hTr : lookupTr8 trs e with
          | none =>
              have hr : handleSingleStateTransition8 m e = m := by
                simp [handleSingleStateTransition8, hcs, hT, hTr]
              rw [hr]
              exact ⟨rfl, rfl, [], by simp, by simp⟩
          | some t =>
              cases hg : guardPasses8 t m.context e with
              | false =>
                  have hr : handleSingleStateTransition8 m e = m := by
                    simp [handleSingleStateTransition8, hcs, hT, hTr, hg]
                  rw [hr]
                  exact ⟨rfl, rfl, [], by simp, by simp⟩
              | true =>
                  have hr : handleSingleStateTransition8 m e =
                      { fireBody m t e with
                          currentState := FlattenedState.single t.target,
                          log := (fireBody m t e).log
                            ++ [LogEntry.fired t.target] } := by
                    simp [handleSingleStateTransition8, hcs, hT, hTr, hg]
                  rw [hr]
                  obtain ⟨f1, f2, f3, d, f4, f5⟩ := fireBody_parts m t e
                  refine ⟨f1, f2, d ++ [LogEntry.fired t.target], ?_,
                    SM.engineMarks_append f5 (by simp [isEngineMark])⟩
                  rw [f4]
                  simp [List.append_assoc]

theorem handleRegion_noMatch (m : Machine8 C) (e s : String)
    (h : hasHandlerFor8 m.transitionMap s e = false) :
    handleRegion m e s = (m, s) := by
  cases hT : lookupStateTransitions m.transitionMap s with
  | none => simp [handleRegion, getTransitionsForState, hT]
  | some trs =>
      cases hTr : lookupTr8 trs e with
      | none => simp [handleRegion, getTransitionsForState, hT, hTr]
      | some t => simp [hasHandlerFor8, hT, hTr] at h

theorem parallelStep_noMatch (e : String) :
    ∀ (rs : List String) (m : Machine8 C),
      (∀ s ∈ rs, hasHandlerFor8 m.transitionMap s e = false) →
      parallelStep m e rs = (m, rs) := by
  intro rs
  induction rs with
  | nil => intro m _; rfl
  | cons s rest ih =>
      intro m h
      have h1 : handleRegion m e s = (m, s) :=
        handleRegion_noMatch m e s (h s (by simp))
      simp only [parallelStep, h1]
      rw [ih m fun x hx => h x (by simp [hx])]

theorem handleSingle8_noMatch (m : Machine8 C) (s e : String)
    (hcs : m.currentState = FlattenedState.single s)
    (h : hasHandlerFor8 m.transitionMap s e = false) :
    handleSingleStateTransition8 m e = m := by
  cases hT : lookupStateTransitions m.transitionMap s with
  | none => simp [handleSingleStateTransition8, hcs, getTransitionsForState, hT]
  | some trs =>
      cases hTr : lookupTr8 trs e with
      | none =>
          simp [handleSingleStateTransition8, hcs, getTransitionsForState,
                hT, hTr]
      | some t => simp [hasHandlerFor8, hT, hTr] at h

theorem machine8_set_currentState (m : Machine8 C) (cs : FlattenedState)
    (h : m.currentState = cs) : { m with currentState := cs } = m := by
  cases m
  cases h
  rfl

end SM8

open SC in
/-- C2 amended: dispatching an event with no matching transition in any
currently-active state leaves the current state and the context unchanged, but
each subscriber IS still invoked — once per flattened active state under
`src/stateMachine.ts`, and once per dispatch under `part_008` (a no-op
dispatch does emit notifications). -/
theorem C2_noop_dispatch_frame_amended :
    (∀ {C : Type} (m : SM.Machine C) (e : String),
      (∀ s ∈ flattenState m.currentState,
        SM.hasHandlerFor m.states s e = false) →
      (SM.send m e).currentState = m.currentState
      ∧ (SM.send m e).context = m.context
      ∧ (SM.send m e).log = m.log ++
          ((flattenState m.currentState).map fun s =>
            m.subscribers.map fun sub => LogEntry.notifyState sub s).flatten)
    ∧ (∀ {C : Type} (m8 : SM8.Machine8 C) (e : String),
      (∀ s ∈ flattenState m8.currentState,
        SM8.hasHandlerFor8 m8.transitionMap s e = false) →
      (SM8.send8 m8 e).currentState = m8.currentState
      ∧ (SM8.send8 m8 e).context = m8.context
      ∧ (SM8.send8 m8 e).log
          = m8.log ++ m8.subscribers.map LogEntry.notifySnapshot) := by
  constructor
  · intro C m e h
    cases hcs : m.currentState with
    | single s =>
        obtain ⟨tids, h1⟩ := SM.handleSingle_noMatch m s e
          (h s (by rw [hcs]; simp [flattenState]))
        have hroute : SM.handlePhase m e
            = SM.handleSingleStateTransition m s e := by
          simp only [SM.handlePhase, hcs]
        have hsend : SM.send m e
            = SM.notifySubscribers { m with timeoutIds := tids } := by
          unfold SM.send
          rw [hroute, h1]
        rw [hsend]
        refine ⟨?_, rfl, ?_⟩
        · show m.currentState = FlattenedState.single s
          exact hcs
        · show m.log ++ ((flattenState m.currentState).map fun st =>
              m.subscribers.map fun sub => LogEntry.notifyState sub st).flatten
            = _
          rw [hcs]
    | multi ss =>
        obtain ⟨tids, h1⟩ := SM.foldl_handle_noMatch e ss m
          (fun s hs => h s (by rw [hcs]; simpa [flattenState] using hs))
        have hroute : SM.handlePhase m e
            = ss.foldl (fun acc s => SM.handleSingleStateTransition acc s e)
                m := by
          simp only [SM.handlePhase, hcs]
        have hsend : SM.send m e
            = SM.notifySubscribers { m with timeoutIds := tids } := by
          unfold SM.send
          rw [hroute, h1]
        rw [hsend]
        refine ⟨?_, rfl, ?_⟩
        · show m.currentState = FlattenedState.multi ss
          exact hcs
        · show m.log ++ ((flattenState m.currentState).map fun st =>
              m.subscribers.map fun sub => LogEntry.notifyState sub st).flatten
            = _
          rw [hcs]
  · intro C m8 e h
    cases hcs : m8.currentState with
    | single s =>
        have h1 := SM8.handleSingle8_noMatch m8 s e hcs
          (h s (by rw [hcs]; simp [flattenState]))
        have hroute : SM8.send8 m8 e
            = SM8.notifySubscribers8 (SM8.handleSingleStateTransition8 m8 e) := by
          simp only [SM8.send8, hcs]
        rw [hroute, h1]
        refine ⟨?_, rfl, rfl⟩
        show m8.currentState = FlattenedState.single s
        exact hcs
    | multi rs =>
        have h1 := SM8.parallelStep_noMatch e rs m8
          (fun s hs => h s (by rw [hcs]; simpa [flattenState] using hs))
        have hroute : SM8.send8 m8 e
            = SM8.notifySubscribers8
                (SM8.handleParallelStateTransitions8 m8 e) := by
          simp only [SM8.send8, hcs]
        have heq : SM8.handleParallelStateTransitions8 m8 e = m8 := by
          have hmatch : SM8.handleParallelStateTransitions8 m8 e
              = { (SM8.parallelStep m8 e rs).1 with
                    currentState :=
                      FlattenedState.multi (SM8.parallelStep m8 e rs).2 } := by
            simp only [SM8.handleParallelStateTransitions8, hcs]
          rw [hmatch, h1]
          exact SM8.machine8_set_currentState m8 (FlattenedState.multi rs) hcs
        rw [hroute, heq]
        refine ⟨?_, rfl, rfl⟩
        show m8.currentState = FlattenedState.multi rs
        exact hcs

/-- C2 witness: the amended statement at concrete no-match machines of both
engines. -/
theorem C2_noop_dispatch_frame_amended_witness :
    ((SM.send EX.noMatchMachine "E").currentState
        = EX.noMatchMachine.currentState
      ∧ (SM.send EX.noMatchMachine "E").context = EX.noMatchMachine.context
      ∧ (SM.send EX.noMatchMachine "E").log = EX.noMatchMachine.log ++
          ((SC.flattenState EX.noMatchMachine.currentState).map fun s =>
            EX.noMatchMachine.subscribers.map fun sub =>
              SC.LogEntry.notifyState sub s).flatten)
    ∧ ((SM8.send8 EX.noMatchB "E").currentState = EX.noMatchB.currentState
      ∧ (SM8.send8 EX.noMatchB "E").context = EX.noMatchB.context
      ∧ (SM8.send8 EX.noMatchB "E").log = EX.noMatchB.log ++
          EX.noMatchB.subscribers.map SC.LogEntry.notifySnapshot) :=
  ⟨C2_noop_dispatch_frame_amended.1 EX.noMatchMachine "E" (by decide),
   C2_noop_dispatch_frame_amended.2 EX.noMatchB "E" (by decide)⟩

open SC in
/-- C3 confirmed: a dispatch that causes at least one transition invokes each
subscriber exactly once (per subscription), in both engines: under
`src/stateMachine.ts` because a fired transition always leaves a single
(non-array) current state, whose flattening has exactly one element; under
`part_008` unconditionally, by its once-per-dispatch notifier. -/
theorem C3_notify_once_per_dispatch :
    (∀ {C : Type} (m : SM.Machine C) (e sub : String),
      countFired m.log < countFired (SM.handlePhase m e).log →
      countNotifyStateOf (SM.send m e).log sub
        = countNotifyStateOf m.log sub + m.subscribers.count sub)
    ∧ (∀ {C : Type} (m8 : SM8.Machine8 C) (e sub : String),
      countNotifySnapshotOf (SM8.send8 m8 e).log sub
        = countNotifySnapshotOf m8.log sub + m8.subscribers.count sub) := by
  constructor
  · intro C m e sub h
    obtain ⟨hst, hsub, d, hlog, hmark⟩ := SM.handlePhase_parts m e
    rcases SM.handlePhase_fire m e with ⟨hl, _⟩ | ⟨u, hu⟩
    · rw [hl] at h
      exact absurd h (lt_irrefl _)
    · have hnotify : (SM.send m e).log = (SM.handlePhase m e).log ++
          (SM.handlePhase m e).subscribers.map
            (fun s0 => LogEntry.notifyState s0 u) := by
        simp [SM.send, SM.notifySubscribers, hu, flattenState]
      rw [hnotify, countNotifyStateOf_append, hsub, countNotifyStateOf_map,
        hlog, countNotifyStateOf_append,
        countNotifyStateOf_engineMarks d sub hmark]
      omega
  · intro C m8 e sub
    cases hcs : m8.currentState with
    | single s =>
        obtain ⟨h1, h2, d, h3, h4⟩ := SM8.handleSingleStateTransition8_parts m8 e
        have hsend : SM8.send8 m8 e
            = SM8.notifySubscribers8 (SM8.handleSingleStateTransition8 m8 e) := by
          simp only [SM8.send8, hcs]
        rw [hsend]
        simp only [SM8.notifySubscribers8]
        rw [countNotifySnapshotOf_append, h2, countNotifySnapshotOf_map, h3,
          countNotifySnapshotOf_append,
          countNotifySnapshotOf_engineMarks d sub h4]
        omega
    | multi rs =>
        obtain ⟨h1, h2, h3, ⟨d, h4, h5⟩, hlen, hidx⟩ :=
          SM8.parallelStep_spec e rs m8
        have hsend : SM8.send8 m8 e = SM8.notifySubscribers8
            { (SM8.parallelStep m8 e rs).1 with
                currentState :=
                  FlattenedState.multi (SM8.parallelStep m8 e rs).2 } := by
          simp only [SM8.send8, SM8.handleParallelStateTransitions8, hcs]
        rw [hsend]
        simp only [SM8.notifySubscribers8]
        rw [countNotifySnapshotOf_append, h2, countNotifySnapshotOf_map, h4,
          countNotifySnapshotOf_append,
          countNotifySnapshotOf_engineMarks d sub h5]
        omega

/-- C3 witness: the power/temperature machine with one subscriber, in both
engines; `TURN_ON` causes a transition and the subscriber is notified exactly
once. -/
theorem C3_notify_once_per_dispatch_witness :
    (SC.countNotifyStateOf (SM.send EX.powerTempSubA "TURN_ON").log "s"
      = SC.countNotifyStateOf EX.powerTempSubA.log "s"
        + EX.powerTempSubA.subscribers.count "s")
    ∧ (SC.countNotifySnapshotOf (SM8.send8 EX.powerTempB "TURN_ON").log "s"
      = SC.countNotifySnapshotOf EX.powerTempB.log "s"
        + EX.powerTempB.subscribers.count "s") :=
  ⟨C3_notify_once_per_dispatch.1 EX.powerTempSubA "TURN_ON" "s" (by decide),
   C3_notify_once_per_dispatch.2 EX.powerTempB "TURN_ON" "s"⟩

namespace SM

open SC

variable {C : Type}

theorem countEntryOf_map_notify (subs : List String) (st s0 : String) :
    countEntryOf (subs.map fun sub => LogEntry.notifyState sub st) s0 = 0 := by
  induction subs with
  | nil => rfl
  | cons x xs ih => simp [countEntryOf, List.filter_cons]

theorem countExitOf_map_notify (subs : List String) (st s0 : String) :
    countExitOf (subs.map fun sub => LogEntry.notifyState sub st) s0 = 0 := by
  induction subs with
  | nil => rfl
  | cons x xs ih => simp [countExitOf, List.filter_cons]

theorem countEntryOf_notifyDelta (sts subs : List String) (s0 : String) :
    countEntryOf
      ((sts.map fun st =>
        subs.map fun sub => LogEntry.notifyState sub st).flatten) s0 = 0 := by
  induction sts with
  | nil => rfl
  | cons st rest ih =>
      simp only [List.map_cons, List.flatten_cons]
      rw [countEntryOf_append, countEntryOf_map_notify, ih]

theorem countExitOf_notifyDelta (sts subs : List String) (s0 : String) :
    countExitOf
      ((sts.map fun st =>
        subs.map fun sub => LogEntry.notifyState sub st).flatten) s0 = 0 := by
  induction sts with
  | nil => rfl
  | cons st rest ih =>
      simp only [List.map_cons, List.flatten_cons]
      rw [countExitOf_append, countExitOf_map_notify, ih]

theorem countExitOf_send (m : Machine C) (e s0 : String) :
    countExitOf (send m e).log s0 = countExitOf m.log s0 := by
  obtain ⟨hst, hsub, d, hlog, hmark⟩ := handlePhase_parts m e
  have hnot : (send m e).log = (handlePhase m e).log ++
      ((flattenState (handlePhase m e).currentState).map fun st =>
        (handlePhase m e).subscribers.map fun sub =>
          LogEntry.notifyState sub st).flatten := rfl
  rw [hnot, countExitOf_append, countExitOf_notifyDelta, hlog,
    countExitOf_append, countExitOf_engineMarks d s0 hmark]
  omega

theorem enterState_log_entry (m : Machine C) (s : String)
    (sd : StateDefinition C) (h0 : HookDef C)
    (hsd : lookupState m.states s = some sd) (hE : sd.onEntry = some h0) :
    (enterState m s).log = m.log ++ [LogEntry.entry s] := by
  obtain ⟨_, _, _, _, _, h6⟩ := setStateTimeout_parts
    { m with context := h0.run m.context,
             log := m.log ++ [LogEntry.entry s] } s sd
  simp only [enterState, hsd, hE]
  exact h6

theorem executeEntryFinish (m : Machine C) (tgt : String) (δ : List LogEntry)
    (M3 : Machine C) (sd : StateDefinition C) (h0 : HookDef C)
    (hs : M3.states = m.states)
    (hlog : M3.log = m.log ++ δ)
    (hδ : countEntryOf δ tgt = 0)
    (hsd : lookupState m.states tgt = some sd)
    (hE : sd.onEntry = some h0) :
    countEntryOf (enterState M3 tgt).log tgt
      = countEntryOf m.log tgt + 1 := by
  have hsd2 : lookupState M3.states tgt = some sd := by rw [hs]; exact hsd
  have h1 : countEntryOf [LogEntry.entry tgt] tgt = 1 := by
    simp [countEntryOf]
  rw [enterState_log_entry M3 tgt sd h0 hsd2 hE, countEntryOf_append, hlog,
    countEntryOf_append, hδ, h1]

theorem countEntryOf_execute (m : Machine C) (t : TransitionDef C) (e : String)
    (sd : StateDefinition C) (h0 : HookDef C)
    (hsd : lookupState m.states t.target = some sd)
    (hE : sd.onEntry = some h0) :
    countEntryOf (executeTransitionAction m t e).log t.target
      = countEntryOf m.log t.target + 1 := by
  rcases hex : m.exitFn with _ | cl
  · rcases hA : t.action with _ | a
    · simp only [executeTransitionAction, hex, hA]
      exact executeEntryFinish m t.target [LogEntry.fired t.target] _ sd h0
        rfl (by simp) (by simp [countEntryOf]) hsd hE
    · rcases hC : a.cleanup with _ | cl2 <;>
        simp only [executeTransitionAction, hex, hA, hC] <;>
        exact executeEntryFinish m t.target
          [LogEntry.act a.label, LogEntry.fired t.target] _ sd h0
          rfl (by simp) (by simp [countEntryOf]) hsd hE
  · rcases hA : t.action with _ | a
    · simp only [executeTransitionAction, hex, hA]
      exact executeEntryFinish m t.target
        [LogEntry.cleanup cl.label, LogEntry.fired t.target] _ sd h0
        rfl (by simp) (by simp [countEntryOf]) hsd hE
    · rcases hC : a.cleanup with _ | cl2 <;>
        simp only [executeTransitionAction, hex, hA, hC] <;>
        exact executeEntryFinish m t.target
          [LogEntry.cleanup cl.label, LogEntry.act a.label,
           LogEntry.fired t.target] _ sd h0
          rfl (by simp) (by simp [countEntryOf]) hsd hE

theorem processTransitionList_allFail :
    ∀ (ts : List (TransitionDef C)) (m : Machine C) (e : String),
      (∀ t ∈ ts, guardPasses t m.context e = false) →
      processTransitionList m ts e = m := by
  intro ts
  induction ts with
  | nil => intro m e _; rfl
  | cons t rest ih =>
      intro m e h
      have hg := h t (by simp)
      simp only [processTransitionList, hg]
      simp only [Bool.false_eq_true, if_false]
      exact ih m e fun u hu => h u (by simp [hu])

theorem processTransitionList_firstPass :
    ∀ (ts1 : List (TransitionDef C)) (m : Machine C) (t : TransitionDef C)
      (ts2 : List (TransitionDef C)) (e : String),
      (∀ u ∈ ts1, guardPasses u m.context e = false) →
      guardPasses t m.context e = true →
      processTransitionList m (ts1 ++ t :: ts2) e
        = executeTransitionAction m t e := by
  intro ts1
  induction ts1 with
  | nil =>
      intro m t ts2 e _ hg
      simp [processTransitionList, hg]
  | cons u rest ih =>
      intro m t ts2 e h hg
      have hu := h u (by simp)
      simp only [List.cons_append, processTransitionList, hu]
      simp only [Bool.false_eq_true, if_false]
      exact ih m t ts2 e (fun v hv => h v (by simp [hv])) hg

end SM

open SC in
/-- C4 amended: a self-transition invokes the state's `onEntry` exactly once,
but its `onExit` zero times — the engine of `src/stateMachine.ts` never
invokes `onExit` on any dispatch (no exit hook ever runs). -/
theorem C4_self_transition_entry_only :
    (∀ {C : Type} (m : SM.Machine C) (s e : String)
        (sd : SM.StateDefinition C) (t : SM.TransitionDef C) (h0 : HookDef C),
      m.currentState = FlattenedState.single s →
      SM.lookupState m.states s = some sd →
      SM.lookupOn sd.eventHandlers e = some (SM.StateTransition.one t) →
      t.guard = none → t.target = s → sd.onEntry = some h0 →
      countEntryOf (SM.send m e).log s = countEntryOf m.log s + 1)
    ∧ (∀ {C : Type} (m : SM.Machine C) (e s0 : String),
      countExitOf (SM.send m e).log s0 = countExitOf m.log s0) := by
  constructor
  · intro C m s e sd t h0 hcs hsd htr hg htg hE
    subst htg
    have hroute : SM.handlePhase m e
        = SM.handleSingleStateTransition m t.target e := by
      simp only [SM.handlePhase, hcs]
    have hstep : SM.handleSingleStateTransition m t.target e
        = SM.executeTransitionAction (SM.clearStateTimeout m t.target) t e := by
      simp [SM.handleSingleStateTransition, hsd, htr, SM.processTransition,
        SM.guardPasses, hg]
    have h1 : countEntryOf (SM.executeTransitionAction
        (SM.clearStateTimeout m t.target) t e).log t.target
        = countEntryOf m.log t.target + 1 :=
      SM.countEntryOf_execute (SM.clearStateTimeout m t.target) t e sd h0
        hsd hE
    have h2 : (SM.send m e).log = (SM.handlePhase m e).log ++
        ((flattenState (SM.handlePhase m e).currentState).map fun st =>
          (SM.handlePhase m e).subscribers.map fun sub =>
            LogEntry.notifyState sub st).flatten := rfl
    rw [h2, countEntryOf_append, SM.countEntryOf_notifyDelta, hroute, hstep,
      h1]
  · intro C m e s0
    exact SM.countExitOf_send m e s0

/-- C4 witness: the self-loop machine with both hooks, dispatching `SELF`. -/
theorem C4_self_transition_entry_only_witness :
    SC.countEntryOf (SM.send EX.selfLoopMachine "SELF").log "a"
      = SC.countEntryOf EX.selfLoopMachine.log "a" + 1
    ∧ SC.countExitOf (SM.send EX.selfLoopMachine "SELF").log "a"
      = SC.countExitOf EX.selfLoopMachine.log "a" :=
  ⟨C4_self_transition_entry_only.1 EX.selfLoopMachine "a" "SELF"
      EX.selfLoopSd EX.selfTr ⟨fun c => c + 1⟩ rfl rfl rfl rfl rfl rfl,
   C4_self_transition_entry_only.2 EX.selfLoopMachine "SELF" "a"⟩

open SC in
/-- C5 confirmed: for an ordered array of candidate transitions, candidates
are evaluated in declared order; the first whose guard is absent or true fires
(the dispatch reduces to exactly that candidate's `executeTransitionAction`,
so later candidates are not executed); if all guards fail, neither the current
state nor the context changes. -/
theorem C5_guard_order (m : SM.Machine C)
    (s e : String) (sd : SM.StateDefinition C) (ts : List (SM.TransitionDef C))
    (hcs : m.currentState = FlattenedState.single s)
    (hsd : SM.lookupState m.states s = some sd)
    (htr : SM.lookupOn sd.eventHandlers e
      = some (SM.StateTransition.many ts)) :
    ((∀ t ∈ ts, SM.guardPasses t m.context e = false) →
      (SM.send m e).currentState = m.currentState
      ∧ (SM.send m e).context = m.context)
    ∧ (∀ ts1 t ts2, ts = ts1 ++ t :: ts2 →
        (∀ u ∈ ts1, SM.guardPasses u m.context e = false) →
        SM.guardPasses t m.context e = true →
        SM.send m e = SM.notifySubscribers
          (SM.executeTransitionAction (SM.clearStateTimeout m s) t e)) := by
  have hroute : SM.handlePhase m e = SM.handleSingleStateTransition m s e := by
    simp only [SM.handlePhase, hcs]
  have hstep : SM.handleSingleStateTransition m s e
      = SM.processTransitionList (SM.clearStateTimeout m s) ts e := by
    simp [SM.handleSingleStateTransition, hsd, htr, SM.processTransition]
  constructor
  · intro hall
    have hfail : SM.processTransitionList (SM.clearStateTimeout m s) ts e
        = SM.clearStateTimeout m s :=
      SM.processTransitionList_allFail ts (SM.clearStateTimeout m s) e hall
    have hsend : SM.send m e
        = SM.notifySubscribers (SM.clearStateTimeout m s) := by
      unfold SM.send
      rw [hroute, hstep, hfail]
    rw [hsend]
    exact ⟨rfl, rfl⟩
  · intro ts1 t ts2 hts hfail hg
    subst hts
    have hfirst := SM.processTransitionList_firstPass ts1
      (SM.clearStateTimeout m s) t ts2 e hfail hg
    unfold SM.send
    rw [hroute, hstep, hfirst]

/-- C5 witness: with guards `[false, false]` nothing changes; with guards
`[false, true]` the dispatch is exactly the second candidate's execution. -/
theorem C5_guard_order_witness :
    ((SM.send EX.bothFalseMachine "GO").currentState
        = EX.bothFalseMachine.currentState
      ∧ (SM.send EX.bothFalseMachine "GO").context
        = EX.bothFalseMachine.context)
    ∧ SM.send EX.guardOrderMachine "GO"
        = SM.notifySubscribers (SM.executeTransitionAction
            (SM.clearStateTimeout EX.guardOrderMachine "a") EX.guardTrue
            "GO") :=
  ⟨(C5_guard_order EX.bothFalseMachine "a" "GO" EX.bothFalseSd
      [EX.guardFalse, EX.guardFalse2] rfl rfl rfl).1 (by decide),
   (C5_guard_order EX.guardOrderMachine "a" "GO" EX.guardOrderSd
      [EX.guardFalse, EX.guardTrue] rfl rfl rfl).2 [EX.guardFalse]
      EX.guardTrue [] rfl (by decide) (by decide)⟩

namespace SM

open SC

variable {C : Type}

theorem enterState_log_cases (m : Machine C) (s : String) :
    (enterState m s).log = m.log
    ∨ (enterState m s).log = m.log ++ [LogEntry.entry s] := by
  cases hsd : lookupState m.states s with
  | none => left; simp [enterState, hsd]
  | some sd =>
      cases hE : sd.onEntry with
      | none =>
          left
          obtain ⟨_, _, _, _, _, h6⟩ := setStateTimeout_parts m s sd
          simp only [enterState, hsd, hE]
          exact h6
      | some h0 => exact Or.inr (enterState_log_entry m s sd h0 hsd hE)

theorem countCleanupOf_enterState (m : Machine C) (s l : String) :
    countCleanupOf (enterState m s).log l = countCleanupOf m.log l := by
  rcases enterState_log_cases m s with h | h
  · rw [h]
  · rw [h]
    simp [countCleanupOf_append, countCleanupOf]

theorem countCleanupOf_execute (m : Machine C) (t : TransitionDef C)
    (e : String) (cl : CleanupDef C) (hex : m.exitFn = some cl) :
    countCleanupOf (executeTransitionAction m t e).log cl.label
      = countCleanupOf m.log cl.label + 1 := by
  rcases hA : t.action with _ | a
  · simp only [executeTransitionAction, hex, hA]
    rw [countCleanupOf_enterState]
    simp [countCleanupOf_append, countCleanupOf]
  · rcases hC : a.cleanup with _ | cl2 <;>
      simp only [executeTransitionAction, hex, hA, hC] <;>
      · rw [countCleanupOf_enterState]
        simp [countCleanupOf_append, countCleanupOf]

theorem executeTransitionAction_exitFn (m : Machine C) (t : TransitionDef C)
    (e : String) :
    (executeTransitionAction m t e).exitFn
      = (match actionCleanup t with
          | some cl2 => some cl2
          | none => m.exitFn) := by
  have hent : ∀ (M3 : Machine C) (tgt : String),
      (enterState M3 tgt).exitFn = M3.exitFn :=
    fun M3 tgt => (enterState_parts M3 tgt).2.2.2.1
  rcases hex : m.exitFn with _ | cl <;> rcases hA : t.action with _ | a
  · simp [executeTransitionAction, actionCleanup, hex, hA, hent]
  · rcases hC : a.cleanup with _ | cl2 <;>
      simp [executeTransitionAction, actionCleanup, hex, hA, hC, hent]
  · simp [executeTransitionAction, actionCleanup, hex, hA, hent]
  · rcases hC : a.cleanup with _ | cl2 <;>
      simp [executeTransitionAction, actionCleanup, hex, hA, hC, hent]

end SM

open SC in
/-- C6 amended: the cleanup closure returned by an action lives in a single
machine-wide `exitFn` slot.  It is invoked at the start of EVERY subsequent
transition execution — in any state or parallel region, whether or not the
state it configured is exiting — and it stays installed (to run again later)
unless the new transition's action returns a replacement.  Both engines share
this behaviour. -/
theorem C6_cleanup_machine_slot :
    (∀ {C : Type} (m : SM.Machine C) (t : SM.TransitionDef C) (e : String)
        (cl : CleanupDef C),
      m.exitFn = some cl →
      countCleanupOf (SM.executeTransitionAction m t e).log cl.label
        = countCleanupOf m.log cl.label + 1)
    ∧ (∀ {C : Type} (m : SM.Machine C) (t : SM.TransitionDef C) (e : String),
      SM.actionCleanup t = none →
      (SM.executeTransitionAction m t e).exitFn = m.exitFn)
    ∧ (∀ {C : Type} (m : SM.Machine C) (t : SM.TransitionDef C) (e : String)
        (cl2 : CleanupDef C),
      SM.actionCleanup t = some cl2 →
      (SM.executeTransitionAction m t e).exitFn = some cl2)
    ∧ (∀ {C : Type} (m8 : SM8.Machine8 C) (t : SM8.Transition8 C) (e : String)
        (cl : CleanupDef C),
      m8.exitFn = some cl →
      countCleanupOf (SM8.fireBody m8 t e).log cl.label
        = countCleanupOf m8.log cl.label + 1) := by
  refine ⟨?_, ?_, ?_, ?_⟩
  · intro C m t e cl hex
    exact SM.countCleanupOf_execute m t e cl hex
  · intro C m t e hac
    rw [SM.executeTransitionAction_exitFn, hac]
  · intro C m t e cl2 hac
    rw [SM.executeTransitionAction_exitFn, hac]
  · intro C m8 t e cl hex
    rcases hA : t.action with _ | a
    · have hr : SM8.fireBody m8 t e
          = { m8 with context := cl.run m8.context,
                      log := m8.log ++ [LogEntry.cleanup cl.label] } := by
        simp [SM8.fireBody, hex, hA]
      rw [hr]
      simp [countCleanupOf_append, countCleanupOf]
    · rcases hC : a.cleanup with _ | cl2
      · have hr : SM8.fireBody m8 t e
            = { m8 with context := a.run (cl.run m8.context) e,
                        log := m8.log ++ [LogEntry.cleanup cl.label,
                                          LogEntry.act a.label] } := by
          simp [SM8.fireBody, hex, hA, hC]
        rw [hr]
        simp [countCleanupOf_append, countCleanupOf]
      · have hr : SM8.fireBody m8 t e
            = { m8 with context := a.run (cl.run m8.context) e,
                        exitFn := some cl2,
                        log := m8.log ++ [LogEntry.cleanup cl.label,
                                          LogEntry.act a.label] } := by
          simp [SM8.fireBody, hex, hA, hC]
        rw [hr]
        simp [countCleanupOf_append, countCleanupOf]

/-- C6 witness: a pending cleanup in each engine runs once on the next
transition execution; the installed slot survives an action that returns no
cleanup and is replaced by one that does. -/
theorem C6_cleanup_machine_slot_witness :
    SC.countCleanupOf (SM.executeTransitionAction EX.pendingCleanupMachine
        EX.plainTr "E").log EX.pendingCleanup.label
      = SC.countCleanupOf EX.pendingCleanupMachine.log
          EX.pendingCleanup.label + 1
    ∧ (SM.executeTransitionAction EX.pendingCleanupMachine EX.plainTr
        "E").exitFn = EX.pendingCleanupMachine.exitFn
    ∧ (SM.executeTransitionAction EX.pendingCleanupMachine EX.cleanupTr
        "E").exitFn = some ⟨"c", fun c => c⟩
    ∧ SC.countCleanupOf (SM8.fireBody EX.pendingCleanupMachineB EX.plainTrB
        "E").log EX.pendingCleanup.label
      = SC.countCleanupOf EX.pendingCleanupMachineB.log
          EX.pendingCleanup.label + 1 :=
  ⟨C6_cleanup_machine_slot.1 EX.pendingCleanupMachine EX.plainTr "E"
      EX.pendingCleanup rfl,
   C6_cleanup_machine_slot.2.1 EX.pendingCleanupMachine EX.plainTr "E" rfl,
   C6_cleanup_machine_slot.2.2.1 EX.pendingCleanupMachine EX.cleanupTr "E"
      ⟨"c", fun c => c⟩ rfl,
   C6_cleanup_machine_slot.2.2.2 EX.pendingCleanupMachineB EX.plainTrB "E"
      EX.pendingCleanup rfl⟩

namespace SC

theorem mapM_decode_str_loop :
    ∀ (ss acc : List String),
      List.mapM.loop decodeStateName (ss.map Json.str) acc
        = some (acc.reverse ++ ss) := by
  intro ss
  induction ss with
  | nil => intro acc; simp [List.mapM.loop]
  | cons s rest ih =>
      intro acc
      simp only [List.map_cons, List.mapM.loop, decodeStateName]
      show List.mapM.loop decodeStateName (List.map Json.str rest) (s :: acc)
        = some (acc.reverse ++ s :: rest)
      rw [ih (s :: acc)]
      simp

theorem mapM_decode_str (ss : List String) :
    (ss.map Json.str).mapM decodeStateName = some ss := by
  have h := mapM_decode_str_loop ss []
  simpa [List.mapM] using h

theorem decodeState_encodeState (cs : FlattenedState) :
    decodeState (encodeState cs) = some cs := by
  cases cs with
  | single s => rfl
  | multi ss =>
      simp only [encodeState, decodeState]
      rw [mapM_decode_str]
      rfl

end SC

/-- C7 confirmed: restoring the snapshot produced by `toJSON` yields a machine
whose current state and context equal the original's at the snapshot instant
(`JSON.stringify`/`JSON.parse` are modelled as the identity on the JSON
document). -/
theorem C7_serialization_roundtrip (m : SM.Machine SC.Json) :
    ∃ m2, SM.fromJSON m (SM.toJSON m) = some m2
      ∧ m2.currentState = m.currentState ∧ m2.context = m.context := by
  have hred : SM.fromJSON m (SM.toJSON m)
      = (SC.decodeState (SC.encodeState m.currentState)).map
          (fun cs => { m with currentState := cs, context := m.context }) :=
    rfl
  refine ⟨m, ?_, rfl, rfl⟩
  rw [hred, SC.decodeState_encodeState]
  rfl

open SC in
/-- C8 amended: a state's timer is armed on entry (when it declares a
timeout); but EVERY dispatch processed in that state clears the armed timer,
whether or not a transition matches — in particular, an event with no matching
transition disarms the timer while the state stays active, and the timer is
not re-armed until the state is next entered. -/
theorem C8_timer_disarmed_by_any_dispatch :
    (∀ {C : Type} (m : SM.Machine C) (s : String) (sd : SM.StateDefinition C),
      SM.lookupState m.states s = some sd → sd.onTimeout.isSome = true →
      s ∈ (SM.enterState m s).timeoutIds)
    ∧ (∀ {C : Type} (m : SM.Machine C) (s e : String)
        (sd : SM.StateDefinition C),
      m.currentState = FlattenedState.single s →
      SM.lookupState m.states s = some sd →
      SM.lookupOn sd.eventHandlers e = none →
      (SM.send m e).timeoutIds = m.timeoutIds.erase s
      ∧ (SM.send m e).currentState = m.currentState
      ∧ (SM.send m e).context = m.context) := by
  constructor
  · intro C m s sd hsd hT
    rcases hTd : sd.onTimeout with _ | td
    · rw [hTd] at hT; simp at hT
    · cases hE : sd.onEntry with
      | none =>
          simp only [SM.enterState, hsd, hE, SM.setStateTimeout, hTd]
          exact List.mem_insert_self s _
      | some h0 =>
          simp only [SM.enterState, hsd, hE, SM.setStateTimeout, hTd]
          exact List.mem_insert_self s _
  · intro C m s e sd hcs hsd ho
    have hroute : SM.handlePhase m e
        = SM.handleSingleStateTransition m s e := by
      simp only [SM.handlePhase, hcs]
    have hstep : SM.handleSingleStateTransition m s e
        = SM.clearStateTimeout m s := by
      simp [SM.handleSingleStateTransition, hsd, ho]
    have hsend : SM.send m e
        = SM.notifySubscribers (SM.clearStateTimeout m s) := by
      unfold SM.send
      rw [hroute, hstep]
    rw [hsend]
    exact ⟨rfl, rfl, rfl⟩

/-- C8 witness: the timeout machine arms on entry, and a no-match dispatch
disarms it while the state stays active. -/
theorem C8_timer_disarmed_by_any_dispatch_witness :
    "a" ∈ (SM.enterState EX.timerBase "a").timeoutIds
    ∧ ((SM.send EX.timerMachine "E").timeoutIds
        = EX.timerMachine.timeoutIds.erase "a"
      ∧ (SM.send EX.timerMachine "E").currentState
        = EX.timerMachine.currentState
      ∧ (SM.send EX.timerMachine "E").context = EX.timerMachine.context) :=
  ⟨C8_timer_disarmed_by_any_dispatch.1 EX.timerBase "a" EX.timerSd rfl rfl,
   C8_timer_disarmed_by_any_dispatch.2 EX.timerMachine "a" "E" EX.timerSd
     rfl rfl rfl⟩

open SC in
/-- C9 amended: under the `part_008` engine, regions do transition
independently as the claim states — each region's successor is its old state
when no transition matches, the registered target when an unguarded transition
matches, and in general either its old state or its registered target (see
`SM8.RegionStepOk`).  Under `src/stateMachine.ts`, by contrast, a fired
transition overwrites the whole current state with its single target,
destroying the parallel configuration (see the counterexample). -/
theorem C9_regions_step_independently (m : SM8.Machine8 C)
    (e : String) (rs : List String)
    (hcs : m.currentState = FlattenedState.multi rs) :
    ∃ rs2, (SM8.send8 m e).currentState = FlattenedState.multi rs2
      ∧ rs2.length = rs.length
      ∧ ∀ i (hi : i < rs.length) (hi2 : i < rs2.length),
          SM8.RegionStepOk m.transitionMap e (rs.get ⟨i, hi⟩)
            (rs2.get ⟨i, hi2⟩) := by
  obtain ⟨h1, h2, h3, hd, hlen, hidx⟩ := SM8.parallelStep_spec e rs m
  have hroute : SM8.send8 m e = SM8.notifySubscribers8
      (SM8.handleParallelStateTransitions8 m e) := by
    simp only [SM8.send8, hcs]
  have hmatch : SM8.handleParallelStateTransitions8 m e
      = { (SM8.parallelStep m e rs).1 with
            currentState :=
              FlattenedState.multi (SM8.parallelStep m e rs).2 } := by
    simp only [SM8.handleParallelStateTransitions8, hcs]
  refine ⟨(SM8.parallelStep m e rs).2, ?_, hlen, hidx⟩
  rw [hroute, hmatch]
  rfl

/-- C9 witness: the power/temperature machine in the `part_008` engine. -/
theorem C9_regions_step_independently_witness :
    ∃ rs2, (SM8.send8 EX.powerTempB "TURN_ON").currentState
        = SC.FlattenedState.multi rs2
      ∧ rs2.length = (["off", "cold"] : List String).length
      ∧ ∀ i (hi : i < (["off", "cold"] : List String).length)
          (hi2 : i < rs2.length),
          SM8.RegionStepOk EX.powerTempB.transitionMap "TURN_ON"
            ((["off", "cold"] : List String).get ⟨i, hi⟩)
            (rs2.get ⟨i, hi2⟩) :=
  C9_regions_step_independently EX.powerTempB "TURN_ON" ["off", "cold"] rfl

open SC in
/-- C10 confirmed: in the `part_008` engine, a dispatch on an array of `n`
region states yields again an array of exactly `n` region states, where each
position holds either the region's previous state or the target of the
transition registered for that previous state and the event — no region is
dropped or duplicated. -/
theorem C10_region_count_invariant (m : SM8.Machine8 C)
    (e : String) (rs : List String)
    (hcs : m.currentState = FlattenedState.multi rs) :
    ∃ rs2, (SM8.send8 m e).currentState = FlattenedState.multi rs2
      ∧ rs2.length = rs.length
      ∧ ∀ i (hi : i < rs.length) (hi2 : i < rs2.length),
          rs2.get ⟨i, hi2⟩ = rs.get ⟨i, hi⟩
          ∨ ∃ trs t,
              SM8.lookupStateTransitions m.transitionMap (rs.get ⟨i, hi⟩)
                = some trs
              ∧ SM8.lookupTr8 trs e = some t
              ∧ rs2.get ⟨i, hi2⟩ = t.target := by
  obtain ⟨h1, h2, h3, hd, hlen, hidx⟩ := SM8.parallelStep_spec e rs m
  have hroute : SM8.send8 m e = SM8.notifySubscribers8
      (SM8.handleParallelStateTransitions8 m e) := by
    simp only [SM8.send8, hcs]
  have hmatch : SM8.handleParallelStateTransitions8 m e
      = { (SM8.parallelStep m e rs).1 with
            currentState :=
              FlattenedState.multi (SM8.parallelStep m e rs).2 } := by
    simp only [SM8.handleParallelStateTransitions8, hcs]
  refine ⟨(SM8.parallelStep m e rs).2, ?_, hlen, ?_⟩
  · rw [hroute, hmatch]
    rfl
  · intro i hi hi2
    exact (hidx i hi hi2).2.2.2

/-- C10 witness: dispatching `HEAT` on the two-region machine steps only the
temperature region and keeps both regions. -/
theorem C10_region_count_invariant_witness :
    ∃ rs2, (SM8.send8 EX.powerTempB "HEAT").currentState
        = SC.FlattenedState.multi rs2
      ∧ rs2.length = (["off", "cold"] : List String).length
      ∧ ∀ i (hi : i < (["off", "cold"] : List String).length)
          (hi2 : i < rs2.length),
          rs2.get ⟨i, hi2⟩ = (["off", "cold"] : List String).get ⟨i, hi⟩
          ∨ ∃ trs t,
              SM8.lookupStateTransitions EX.powerTempB.transitionMap
                ((["off", "cold"] : List String).get ⟨i, hi⟩) = some trs
              ∧ SM8.lookupTr8 trs "HEAT" = some t
              ∧ rs2.get ⟨i, hi2⟩ = t.target :=
  C10_region_count_invariant EX.powerTempB "HEAT" ["off", "cold"] rfl
